import Mathlib

/-!
Verification of the clipboard-controller coordination core.

The definitions below are a shallow embedding of the Go sources:
`model/ticket.go` (the `Ticket` lifecycle value), `model/tool.go`,
`service/tool_registry.go`, `service/lock_manager.go` and the event
logger's metrics counters (`logger/event_logger.go`).

Modelling conventions:
* The monotonic clock is a `Nat` passed explicitly to every operation
  that reads `time.Now()` in the source (one value per operation).
* `uuid.New()` is modelled by a fresh counter `nextId`; ticket ids are
  `Nat` and are never reused.
* Go maps become association lists; Go `*Ticket` aliasing (the same
  ticket object reachable from the queue, the holder slot and the
  `tickets` map) is modelled by storing ticket ids in the queue and
  holder slot and keeping the single authoritative ticket record in the
  `tickets` list, exactly mirroring pointer sharing.
* Durations configured in seconds are plain `Nat`s; overflow does not
  arise for `Nat`.
-/

namespace Clipboard

/-! ### Ticket (model/ticket.go) -/

inductive TicketStatus where
  | waiting
  | granted
  | expired
  | released
deriving DecidableEq, Repr

structure Ticket where
  ticketID : Nat
  toolID : String
  threadID : String
  requestedAt : Nat
  status : TicketStatus
  grantedAt : Nat
  expiresAt : Nat
  lastPollAt : Nat
  extendCount : Nat
deriving DecidableEq, Repr

/-- `model.NewTicket`: a fresh waiting ticket; `LastPollAt` starts at the
creation instant, i.e. equal to `RequestedAt`. -/
def newTicket (id : Nat) (toolID threadID : String) (now : Nat) : Ticket :=
  { ticketID := id
    toolID := toolID
    threadID := threadID
    requestedAt := now
    status := .waiting
    grantedAt := 0
    expiresAt := 0
    lastPollAt := now
    extendCount := 0 }

def Ticket.isWaiting (t : Ticket) : Bool := t.status == .waiting

def Ticket.isGranted (t : Ticket) : Bool := t.status == .granted

/-- `Ticket.Grant`: status `granted`, `granted_at = now`, `expires_at = now + duration`. -/
def Ticket.grant (t : Ticket) (now dur : Nat) : Ticket :=
  { t with status := .granted, grantedAt := now, expiresAt := now + dur }

def Ticket.expire (t : Ticket) : Ticket := { t with status := .expired }

def Ticket.release (t : Ticket) : Ticket := { t with status := .released }

def Ticket.updatePollTime (t : Ticket) (now : Nat) : Ticket := { t with lastPollAt := now }

/-- `Ticket.IsLockExpired`: granted and past `expires_at`. -/
def Ticket.isLockExpired (t : Ticket) (now : Nat) : Bool :=
  t.isGranted && decide (now > t.expiresAt)

/-- `Ticket.IsTTLExpired`: waiting and `now - last_poll_at > ttl`. -/
def Ticket.isTTLExpired (t : Ticket) (now ttl : Nat) : Bool :=
  t.isWaiting && decide (now - t.lastPollAt > ttl)

/-- `Ticket.IsGracePeriodExpired`: granted, never polled since grant
(`last_poll_at ≤ granted_at`) and `now - granted_at > grace`. -/
def Ticket.isGracePeriodExpired (t : Ticket) (now grace : Nat) : Bool :=
  t.isGranted && (if t.lastPollAt ≤ t.grantedAt then decide (now - t.grantedAt > grace) else false)

/-- `Ticket.Extend`: `expires_at = now + extendDuration` (a reset, not an
increment of the previous expiry) and `extend_count++`. -/
def Ticket.extend (t : Ticket) (now dur : Nat) : Ticket :=
  { t with expiresAt := now + dur, extendCount := t.extendCount + 1 }

/-- `Ticket.Key`: the `tool:thread` queue key. -/
def Ticket.key (t : Ticket) : String := t.toolID ++ ":" ++ t.threadID

/-! ### Tool and registry (model/tool.go, service/tool_registry.go) -/

inductive ToolStatus where
  | online
  | offline
deriving DecidableEq, Repr

structure Tool where
  toolID : String
  registeredAt : Nat
  lastHeartbeat : Nat
  status : ToolStatus
deriving DecidableEq, Repr

def newTool (id : String) (now : Nat) : Tool :=
  { toolID := id, registeredAt := now, lastHeartbeat := now, status := .online }

def Tool.isOnline (t : Tool) : Bool := t.status == .online

def Tool.updateHeartbeat (t : Tool) (now : Nat) : Tool :=
  { t with lastHeartbeat := now, status := .online }

def Tool.markOffline (t : Tool) : Tool := { t with status := .offline }

def Tool.isHeartbeatExpired (t : Tool) (now timeout : Nat) : Bool :=
  decide (now - t.lastHeartbeat > timeout)

/-- The registry map `tool_id → *Tool`, as a list keyed by `toolID`. -/
abbrev Registry := List Tool

def lookupTool (tools : Registry) (id : String) : Option Tool :=
  tools.find? (fun t => t.toolID == id)

def updateToolList (tools : Registry) (id : String) (f : Tool → Tool) : Registry :=
  tools.map (fun t => if t.toolID == id then f t else t)

/-- `ToolRegistry.IsOnline`: present and status online. -/
def isOnline (tools : Registry) (id : String) : Bool :=
  match lookupTool tools id with
  | some t => t.isOnline
  | none => false

/-- `ToolRegistry.Register`: reject when present and online, reactivate when
present and offline, create when absent. -/
def registerTool (now : Nat) (id : String) (tools : Registry) : Registry :=
  match lookupTool tools id with
  | some t =>
      if t.isOnline then tools
      else updateToolList tools id (fun u => u.updateHeartbeat now)
  | none => tools ++ [newTool id now]

/-- `ToolRegistry.Heartbeat` state effect (`NotFound` leaves it unchanged). -/
def heartbeatTool (now : Nat) (id : String) (tools : Registry) : Registry :=
  match lookupTool tools id with
  | some _ => updateToolList tools id (fun u => u.updateHeartbeat now)
  | none => tools

/-- `ToolRegistry.Unregister` state effect: mark offline, keep the record. -/
def unregisterTool (id : String) (tools : Registry) : Registry :=
  match lookupTool tools id with
  | some _ => updateToolList tools id Tool.markOffline
  | none => tools

/-- `ToolRegistry.CheckAndMarkOffline` state effect: every online tool whose
heartbeat exceeded the timeout is marked offline. -/
def checkAndMarkOffline (now timeout : Nat) (tools : Registry) : Registry :=
  tools.map (fun t => if t.isOnline && t.isHeartbeatExpired now timeout then t.markOffline else t)

/-! ### Configuration (config.go fields used by the lock manager) -/

structure Config where
  heartbeatTimeout : Nat
  ticketTTL : Nat
  ticketTTLOnPoll : Bool
  lockMaxDuration : Nat
  lockExtendable : Bool
  lockExtendMax : Nat
  lockGracePeriod : Nat
deriving Repr

/-! ### Lock manager state (service/lock_manager.go) -/

/-- `LockManager` state. `queue` and `currentLock` hold ticket ids (Go holds
`*Ticket` pointers into the `tickets` map); `threadKeys` maps `tool:thread`
keys to ticket ids; `nextId` models uuid freshness. -/
structure LMState where
  queue : List Nat
  currentLock : Option Nat
  tickets : List Ticket
  threadKeys : List (String × Nat)
  nextId : Nat
deriving DecidableEq, Repr

inductive LockErr where
  | toolOffline
  | ticketNotFound
  | notLockHolder
  | extendDisabled
  | maxExtendReached
deriving DecidableEq, Repr

/-- Lookup in the `tickets` map. -/
def findTicket (ts : List Ticket) (id : Nat) : Option Ticket :=
  ts.find? (fun t => t.ticketID == id)

/-- In-place mutation of the ticket object with the given id (pointer write). -/
def updateTicket (ts : List Ticket) (id : Nat) (f : Ticket → Ticket) : List Ticket :=
  ts.map (fun t => if t.ticketID == id then f t else t)

/-- `delete(lm.tickets, id)`. -/
def removeTicket (ts : List Ticket) (id : Nat) : List Ticket :=
  ts.filter (fun t => t.ticketID != id)

/-- `lm.threadKeys[key] = id` (map insert/overwrite). -/
def tkInsert (tk : List (String × Nat)) (k : String) (v : Nat) : List (String × Nat) :=
  (k, v) :: tk.filter (fun p => p.1 != k)

/-- `lm.threadKeys[key]` lookup. -/
def tkLookup (tk : List (String × Nat)) (k : String) : Option Nat :=
  (tk.find? (fun p => p.1 == k)).map (fun p => p.2)

/-- `delete(lm.threadKeys, key)`. -/
def tkErase (tk : List (String × Nat)) (k : String) : List (String × Nat) :=
  tk.filter (fun p => p.1 != k)

/-- `cleanupTicket`: remove the ticket from the id map and the thread-key map. -/
def cleanupTicket (lm : LMState) (t : Ticket) : LMState :=
  { lm with
    tickets := removeTicket lm.tickets t.ticketID
    threadKeys := tkErase lm.threadKeys t.key }

/-- `tryGrantNext`: if no holder and the queue is non-empty, pop the head and
grant it for `lock_max_duration`. No online check is performed. -/
def tryGrantNext (cfg : Config) (now : Nat) (lm : LMState) : LMState :=
  match lm.currentLock with
  | some _ => lm
  | none =>
    match lm.queue with
    | [] => lm
    | h :: rest =>
      { lm with
        queue := rest
        tickets := updateTicket lm.tickets h (fun t => t.grant now cfg.lockMaxDuration)
        currentLock := some h }

/-- `getQueuePosition` inner loop: 1-based position in the queue, `-1` if absent. -/
def posInQueue (q : List Nat) (tid : Nat) (i : Nat) : Int :=
  match q with
  | [] => -1
  | h :: rest => if h == tid then ((i : Int) + 1) else posInQueue rest tid (i + 1)

/-- `getQueuePosition`: `0` for the holder, 1-based queue position, `-1` if absent. -/
def getQueuePosition (lm : LMState) (tid : Nat) : Int :=
  if lm.currentLock == some tid then 0 else posInQueue lm.queue tid 0

/-- Combined system state: tool registry plus lock manager. -/
structure SysState where
  reg : Registry
  lm : LMState
deriving Repr

def initState : SysState :=
  { reg := []
    lm := { queue := [], currentLock := none, tickets := [], threadKeys := [], nextId := 0 } }

/-- The existing-live-ticket check at the top of `RequestLock`: the thread-key
entry must resolve to a ticket that is waiting or granted. -/
def existingLive (lm : LMState) (key : String) : Option Ticket :=
  match tkLookup lm.threadKeys key with
  | some eid =>
    match findTicket lm.tickets eid with
    | some t => if t.isWaiting || t.isGranted then some t else none
    | none => none
  | none => none

/-- `RequestLock`: reject when the tool is not online; return an existing live
ticket for the key unchanged; otherwise create, index and enqueue a fresh
ticket, run the grant step, and return the ticket with its post-grant
position. -/
def requestLock (cfg : Config) (now : Nat) (toolID threadID : String) (s : SysState) :
    Except LockErr (Ticket × Int) × SysState :=
  if !(isOnline s.reg toolID) then (.error .toolOffline, s)
  else
    let key := toolID ++ ":" ++ threadID
    match existingLive s.lm key with
    | some t => (.ok (t, getQueuePosition s.lm t.ticketID), s)
    | none =>
      let t := newTicket s.lm.nextId toolID threadID now
      let lm1 : LMState :=
        { queue := s.lm.queue ++ [t.ticketID]
          currentLock := s.lm.currentLock
          tickets := t :: s.lm.tickets
          threadKeys := tkInsert s.lm.threadKeys key t.ticketID
          nextId := s.lm.nextId + 1 }
      let lm2 := tryGrantNext cfg now lm1
      let tOut := (findTicket lm2.tickets t.ticketID).getD t
      (.ok (tOut, getQueuePosition lm2 t.ticketID), { s with lm := lm2 })

/-- `CheckLock`: `NotFound` when absent; update the poll time for waiting
tickets when `ticket_ttl_on_poll` is set, and always for the granted holder;
return the ticket and its position. -/
def checkLock (cfg : Config) (now : Nat) (tid : Nat) (lm : LMState) :
    Except LockErr (Ticket × Int) × LMState :=
  match findTicket lm.tickets tid with
  | none => (.error .ticketNotFound, lm)
  | some t =>
    let t1 := if cfg.ticketTTLOnPoll && t.isWaiting then t.updatePollTime now else t
    let t2 := if t1.isGranted then t1.updatePollTime now else t1
    let lm' := { lm with tickets := updateTicket lm.tickets tid (fun _ => t2) }
    (.ok (t2, getQueuePosition lm' tid), lm')

/-- `ReleaseLock`: `NotFound` when absent, `NotHolder` when not the current
holder; otherwise release, clear the holder slot, clean up the indices and run
the grant step. -/
def releaseLock (cfg : Config) (now : Nat) (tid : Nat) (lm : LMState) :
    Except LockErr Ticket × LMState :=
  match findTicket lm.tickets tid with
  | none => (.error .ticketNotFound, lm)
  | some t =>
    if lm.currentLock != some tid then (.error .notLockHolder, lm)
    else
      let t' := t.release
      let lm1 : LMState :=
        { lm with tickets := updateTicket lm.tickets tid (fun _ => t'), currentLock := none }
      let lm2 := cleanupTicket lm1 t'
      (.ok t', tryGrantNext cfg now lm2)

/-- `ExtendLock`: flag check, then `NotFound` / `NotHolder` /
`MaxExtendReached`, then `Ticket.Extend` with `lock_max_duration`. -/
def extendLock (cfg : Config) (now : Nat) (tid : Nat) (lm : LMState) :
    Except LockErr Ticket × LMState :=
  if !cfg.lockExtendable then (.error .extendDisabled, lm)
  else
    match findTicket lm.tickets tid with
    | none => (.error .ticketNotFound, lm)
    | some t =>
      if lm.currentLock != some tid then (.error .notLockHolder, lm)
      else if cfg.lockExtendMax ≤ t.extendCount then (.error .maxExtendReached, lm)
      else
        let t' := t.extend now cfg.lockMaxDuration
        (.ok t', { lm with tickets := updateTicket lm.tickets tid (fun _ => t') })

/-- `ExpireCurrentLock`: force-expire the holder (if any), clean up, grant next. -/
def expireCurrentLock (cfg : Config) (now : Nat) (lm : LMState) :
    Option Ticket × LMState :=
  match lm.currentLock with
  | none => (none, lm)
  | some id =>
    match findTicket lm.tickets id with
    | none => (none, lm)
    | some t =>
      let t' := t.expire
      let lm1 : LMState :=
        { lm with tickets := updateTicket lm.tickets id (fun _ => t'), currentLock := none }
      let lm2 := cleanupTicket lm1 t'
      (some t', tryGrantNext cfg now lm2)

/-- The queue walk shared by `ExpireWaitingTickets` and `RemoveToolTickets`:
tickets satisfying `p` are mutated by `g`, cleaned out of the store and the
thread-key map and collected; the rest stay in the queue in order. -/
def sweepQueue (p : Ticket → Bool) (g : Ticket → Ticket) :
    List Nat → List Ticket → List (String × Nat) →
    List Ticket × List Nat × List Ticket × List (String × Nat)
  | [], ts, tk => ([], [], ts, tk)
  | id :: rest, ts, tk =>
    match findTicket ts id with
    | none =>
      let (ex, q, ts', tk') := sweepQueue p g rest ts tk
      (ex, id :: q, ts', tk')
    | some t =>
      if p t then
        let t' := g t
        let ts1 := removeTicket (updateTicket ts id (fun _ => t')) id
        let tk1 := tkErase tk t'.key
        let (ex, q, ts', tk') := sweepQueue p g rest ts1 tk1
        (t' :: ex, q, ts', tk')
      else
        let (ex, q, ts', tk') := sweepQueue p g rest ts tk
        (ex, id :: q, ts', tk')

/-- `ExpireWaitingTickets`: walk the queue, expire and clean up every ticket
whose TTL has lapsed, keep the survivors in order, return the expired ones. -/
def expireWaitingTickets (cfg : Config) (now : Nat) (lm : LMState) :
    List Ticket × LMState :=
  let (ex, q, ts, tk) :=
    sweepQueue (fun t => t.isTTLExpired now cfg.ticketTTL) Ticket.expire lm.queue lm.tickets lm.threadKeys
  (ex, { lm with queue := q, tickets := ts, threadKeys := tk })

/-- `CheckGracePeriod`: force-expire the holder when it has not polled since
grant and the grace period lapsed; then grant next. -/
def checkGracePeriod (cfg : Config) (now : Nat) (lm : LMState) :
    Option Ticket × LMState :=
  match lm.currentLock with
  | none => (none, lm)
  | some id =>
    match findTicket lm.tickets id with
    | none => (none, lm)
    | some t =>
      if t.isGracePeriodExpired now cfg.lockGracePeriod then
        let t' := t.expire
        let lm1 : LMState :=
          { lm with tickets := updateTicket lm.tickets id (fun _ => t'), currentLock := none }
        let lm2 := cleanupTicket lm1 t'
        (some t', tryGrantNext cfg now lm2)
      else (none, lm)

/-- `CheckLockExpiry`: force-expire the holder when `now > expires_at`; then
grant next. -/
def checkLockExpiry (cfg : Config) (now : Nat) (lm : LMState) :
    Option Ticket × LMState :=
  match lm.currentLock with
  | none => (none, lm)
  | some id =>
    match findTicket lm.tickets id with
    | none => (none, lm)
    | some t =>
      if t.isLockExpired now then
        let t' := t.expire
        let lm1 : LMState :=
          { lm with tickets := updateTicket lm.tickets id (fun _ => t'), currentLock := none }
        let lm2 := cleanupTicket lm1 t'
        (some t', tryGrantNext cfg now lm2)
      else (none, lm)

/-- The holder-slot stage of `RemoveToolTickets`: drop the current holder when
it belongs to the tool. -/
def removeHolderIfTool (toolID : String) (lm : LMState) : List Nat × LMState :=
  match lm.currentLock with
  | some i =>
    match findTicket lm.tickets i with
    | some t =>
      if t.toolID == toolID then
        ([i], cleanupTicket { lm with currentLock := none } t)
      else ([], lm)
    | none => ([], lm)
  | none => ([], lm)

/-- `RemoveToolTickets`: drop the holder if it belongs to the tool, drop every
queued ticket of the tool, and (when anything was removed) run the grant step. -/
def removeToolTickets (cfg : Config) (now : Nat) (toolID : String) (lm : LMState) :
    List Nat × LMState :=
  let st0 := removeHolderIfTool toolID lm
  let s := sweepQueue (fun t => t.toolID == toolID) id
    st0.2.queue st0.2.tickets st0.2.threadKeys
  let removed := st0.1 ++ s.1.map Ticket.ticketID
  let lm1 : LMState := { st0.2 with queue := s.2.1, tickets := s.2.2.1, threadKeys := s.2.2.2 }
  if removed.isEmpty then (removed, lm1)
  else (removed, tryGrantNext cfg now lm1)

/-! ### Operations and reachability -/

/-- One externally driven operation (HTTP handler call or timer tick), with
the clock value at which it runs. -/
inductive Op where
  | register (now : Nat) (toolID : String)
  | heartbeat (now : Nat) (toolID : String)
  | unregister (toolID : String)
  | markOfflineSweep (now : Nat)
  | requestLock (now : Nat) (toolID threadID : String)
  | checkLock (now : Nat) (ticketID : Nat)
  | releaseLock (now : Nat) (ticketID : Nat)
  | extendLock (now : Nat) (ticketID : Nat)
  | expireCurrentLock (now : Nat)
  | expireWaitingTickets (now : Nat)
  | checkGracePeriod (now : Nat)
  | checkLockExpiry (now : Nat)
  | removeToolTickets (now : Nat) (toolID : String)
deriving DecidableEq, Repr

/-- State transition of one operation (outputs discarded). -/
def stepOp (cfg : Config) (op : Op) (s : SysState) : SysState :=
  match op with
  | .register now id => { s with reg := registerTool now id s.reg }
  | .heartbeat now id => { s with reg := heartbeatTool now id s.reg }
  | .unregister id => { s with reg := unregisterTool id s.reg }
  | .markOfflineSweep now => { s with reg := checkAndMarkOffline now cfg.heartbeatTimeout s.reg }
  | .requestLock now toolID threadID => (requestLock cfg now toolID threadID s).2
  | .checkLock now tid => { s with lm := (checkLock cfg now tid s.lm).2 }
  | .releaseLock now tid => { s with lm := (releaseLock cfg now tid s.lm).2 }
  | .extendLock now tid => { s with lm := (extendLock cfg now tid s.lm).2 }
  | .expireCurrentLock now => { s with lm := (expireCurrentLock cfg now s.lm).2 }
  | .expireWaitingTickets now => { s with lm := (expireWaitingTickets cfg now s.lm).2 }
  | .checkGracePeriod now => { s with lm := (checkGracePeriod cfg now s.lm).2 }
  | .checkLockExpiry now => { s with lm := (checkLockExpiry cfg now s.lm).2 }
  | .removeToolTickets now id => { s with lm := (removeToolTickets cfg now id s.lm).2 }

/-- Run a list of operations from a state. -/
def execOps (cfg : Config) (s : SysState) : List Op → SysState
  | [] => s
  | op :: rest => execOps cfg (stepOp cfg op s) rest

/-- States reachable from the empty initial state. -/
inductive Reachable (cfg : Config) : SysState → Prop where
  | init : Reachable cfg initState
  | step {s : SysState} (op : Op) : Reachable cfg s → Reachable cfg (stepOp cfg op s)

/-! ### Basic lemmas about the store and index operations -/

theorem findTicket_cons {t : Ticket} {ts : List Ticket} {id : Nat} :
    findTicket (t :: ts) id = if t.ticketID = id then some t else findTicket ts id := by
  by_cases h : t.ticketID = id <;> simp [findTicket, List.find?_cons, h]

theorem updateTicket_cons {t : Ticket} {ts : List Ticket} {id : Nat} {f : Ticket → Ticket} :
    updateTicket (t :: ts) id f =
      (if t.ticketID = id then f t else t) :: updateTicket ts id f := by
  by_cases h : t.ticketID = id <;> simp [updateTicket, h]

theorem removeTicket_cons {t : Ticket} {ts : List Ticket} {id : Nat} :
    removeTicket (t :: ts) id =
      if t.ticketID = id then removeTicket ts id else t :: removeTicket ts id := by
  by_cases h : t.ticketID = id <;> simp [removeTicket, List.filter_cons, h]

theorem tkErase_cons {p : String × Nat} {tk : List (String × Nat)} {k : String} :
    tkErase (p :: tk) k = if p.1 = k then tkErase tk k else p :: tkErase tk k := by
  by_cases h : p.1 = k <;> simp [tkErase, List.filter_cons, h]

theorem tkLookup_cons {p : String × Nat} {tk : List (String × Nat)} {k : String} :
    tkLookup (p :: tk) k = if p.1 = k then some p.2 else tkLookup tk k := by
  by_cases h : p.1 = k <;> simp [tkLookup, List.find?_cons, h]

theorem findTicket_eq_none {ts : List Ticket} {id : Nat} :
    findTicket ts id = none ↔ ∀ t ∈ ts, t.ticketID ≠ id := by
  simp [findTicket, List.find?_eq_none]

theorem findTicket_some {ts : List Ticket} {id : Nat} {t : Ticket}
    (h : findTicket ts id = some t) : t ∈ ts ∧ t.ticketID = id := by
  refine ⟨List.mem_of_find?_eq_some h, ?_⟩
  have := List.find?_some h
  simpa using this

theorem mem_updateTicket {ts : List Ticket} {id : Nat} {f : Ticket → Ticket} {u : Ticket} :
    u ∈ updateTicket ts id f ↔ ∃ v ∈ ts, u = if v.ticketID = id then f v else v := by
  simp only [updateTicket, List.mem_map]
  constructor
  · rintro ⟨v, hv, rfl⟩
    exact ⟨v, hv, by by_cases h : v.ticketID = id <;> simp [h]⟩
  · rintro ⟨v, hv, rfl⟩
    exact ⟨v, hv, by by_cases h : v.ticketID = id <;> simp [h]⟩

theorem updateTicket_map_id {ts : List Ticket} {id : Nat} {f : Ticket → Ticket}
    (hf : ∀ v ∈ ts, v.ticketID = id → (f v).ticketID = v.ticketID) :
    (updateTicket ts id f).map Ticket.ticketID = ts.map Ticket.ticketID := by
  induction ts with
  | nil => rfl
  | cons t ts ih =>
    rw [updateTicket_cons, List.map_cons, List.map_cons,
      ih (fun v hv => hf v (List.mem_cons_of_mem t hv))]
    by_cases h : t.ticketID = id
    · simp [h, hf t (List.mem_cons_self t ts) h]
    · simp [h]

theorem findTicket_updateTicket_self {ts : List Ticket} {id : Nat} {f : Ticket → Ticket}
    (hf : ∀ v ∈ ts, v.ticketID = id → (f v).ticketID = v.ticketID) :
    findTicket (updateTicket ts id f) id = (findTicket ts id).map f := by
  induction ts with
  | nil => rfl
  | cons t ts ih =>
    rw [updateTicket_cons, findTicket_cons, findTicket_cons]
    by_cases h : t.ticketID = id
    · simp [h, hf t (List.mem_cons_self t ts) h]
    · simp [h, ih (fun v hv => hf v (List.mem_cons_of_mem t hv))]

theorem findTicket_updateTicket_ne {ts : List Ticket} {id id' : Nat} {f : Ticket → Ticket}
    (hf : ∀ v ∈ ts, v.ticketID = id → (f v).ticketID = v.ticketID) (hne : id' ≠ id) :
    findTicket (updateTicket ts id f) id' = findTicket ts id' := by
  induction ts with
  | nil => rfl
  | cons t ts ih =>
    rw [updateTicket_cons]
    have ih' := ih (fun v hv => hf v (List.mem_cons_of_mem t hv))
    by_cases h : t.ticketID = id
    · rw [if_pos h, findTicket_cons, findTicket_cons,
        hf t (List.mem_cons_self t ts) h,
        if_neg (fun hc => hne (hc.symm.trans h)), if_neg (fun hc => hne (hc.symm.trans h)), ih']
    · rw [if_neg h, findTicket_cons, findTicket_cons]
      by_cases h' : t.ticketID = id' <;> simp [h', ih']

theorem mem_removeTicket {ts : List Ticket} {id : Nat} {u : Ticket} :
    u ∈ removeTicket ts id ↔ u ∈ ts ∧ u.ticketID ≠ id := by
  simp [removeTicket, List.mem_filter]

theorem findTicket_removeTicket_ne {ts : List Ticket} {id id' : Nat} (hne : id' ≠ id) :
    findTicket (removeTicket ts id) id' = findTicket ts id' := by
  induction ts with
  | nil => rfl
  | cons t ts ih =>
    rw [removeTicket_cons, findTicket_cons]
    by_cases h : t.ticketID = id
    · rw [if_pos h, ih, if_neg (fun hc => hne (h ▸ hc.symm))]
    · rw [if_neg h, findTicket_cons]
      by_cases h' : t.ticketID = id' <;> simp [h', ih]

theorem removeTicket_updateTicket {ts : List Ticket} {id : Nat} {f : Ticket → Ticket}
    (hf : ∀ v ∈ ts, v.ticketID = id → (f v).ticketID = v.ticketID) :
    removeTicket (updateTicket ts id f) id = removeTicket ts id := by
  induction ts with
  | nil => rfl
  | cons t ts ih =>
    rw [updateTicket_cons]
    have ih' := ih (fun v hv => hf v (List.mem_cons_of_mem t hv))
    by_cases h : t.ticketID = id
    · rw [if_pos h, removeTicket_cons, removeTicket_cons,
        hf t (List.mem_cons_self t ts) h, if_pos h, if_pos h, ih']
    · rw [if_neg h, removeTicket_cons, removeTicket_cons, if_neg h, if_neg h, ih']

theorem removeTicket_map_ids {ts : List Ticket} {id : Nat} :
    (removeTicket ts id).map Ticket.ticketID
      = (ts.map Ticket.ticketID).filter (fun i => i != id) := by
  induction ts with
  | nil => rfl
  | cons t ts ih =>
    rw [removeTicket_cons, List.map_cons, List.filter_cons]
    by_cases h : t.ticketID = id <;> simp [h, ih]

theorem tkLookup_tkInsert_self {tk : List (String × Nat)} {k : String} {v : Nat} :
    tkLookup (tkInsert tk k v) k = some v := by
  simp [tkLookup, tkInsert, List.find?_cons]

theorem tkLookup_tkErase_ne {tk : List (String × Nat)} {k k' : String}
    (h : k' ≠ k) : tkLookup (tkErase tk k) k' = tkLookup tk k' := by
  induction tk with
  | nil => rfl
  | cons p tk ih =>
    rw [tkErase_cons, tkLookup_cons]
    by_cases hp : p.1 = k
    · rw [if_pos hp, ih, if_neg (fun hc => h (hp ▸ hc.symm))]
    · rw [if_neg hp, tkLookup_cons]
      by_cases hp' : p.1 = k' <;> simp [hp', ih]

theorem tkLookup_tkInsert_ne {tk : List (String × Nat)} {k k' : String} {v : Nat}
    (h : k' ≠ k) : tkLookup (tkInsert tk k v) k' = tkLookup tk k' := by
  rw [tkInsert, tkLookup_cons, if_neg (fun hc => h hc.symm)]
  exact tkLookup_tkErase_ne h

theorem mem_tkErase {tk : List (String × Nat)} {k : String} {p : String × Nat} :
    p ∈ tkErase tk k ↔ p ∈ tk ∧ p.1 ≠ k := by
  simp [tkErase, List.mem_filter]

theorem mem_tkInsert {tk : List (String × Nat)} {k : String} {v : Nat} {p : String × Nat} :
    p ∈ tkInsert tk k v ↔ p = (k, v) ∨ (p ∈ tk ∧ p.1 ≠ k) := by
  simp [tkInsert, List.mem_filter]

/-! ### The lock-manager invariant -/

/-- The state invariant of the lock manager, preserved by every operation:
only live tickets are stored; granted status coincides with holding the lock;
every stored ticket is the holder or queued; the queue resolves to waiting
tickets without duplicates; the thread-key index is exactly the live-ticket
index; ids are fresh below `nextId`. -/
structure Inv (lm : LMState) : Prop where
  ids_lt : ∀ t ∈ lm.tickets, t.ticketID < lm.nextId
  ids_nodup : (lm.tickets.map Ticket.ticketID).Nodup
  live : ∀ t ∈ lm.tickets, t.status = .waiting ∨ t.status = .granted
  granted_holder : ∀ t ∈ lm.tickets, t.status = .granted → lm.currentLock = some t.ticketID
  holder_granted : ∀ id, lm.currentLock = some id →
    ∃ t ∈ lm.tickets, t.ticketID = id ∧ t.status = .granted
  queue_waiting : ∀ id ∈ lm.queue, ∃ t ∈ lm.tickets, t.ticketID = id ∧ t.status = .waiting
  mem_placed : ∀ t ∈ lm.tickets, lm.currentLock = some t.ticketID ∨ t.ticketID ∈ lm.queue
  queue_nodup : lm.queue.Nodup
  tk_complete : ∀ t ∈ lm.tickets, tkLookup lm.threadKeys t.key = some t.ticketID
  tk_sound : ∀ p ∈ lm.threadKeys, ∃ t ∈ lm.tickets, p.1 = t.key ∧ p.2 = t.ticketID

theorem ticket_eq_of_id {lm : LMState} (hinv : Inv lm) {t u : Ticket}
    (ht : t ∈ lm.tickets) (hu : u ∈ lm.tickets) (h : t.ticketID = u.ticketID) : t = u := by
  have := List.inj_on_of_nodup_map hinv.ids_nodup
  exact this ht hu h

theorem find_of_mem {lm : LMState} (hinv : Inv lm) {t : Ticket} (ht : t ∈ lm.tickets) :
    findTicket lm.tickets t.ticketID = some t := by
  rcases h : findTicket lm.tickets t.ticketID with _ | u
  · exact absurd rfl (findTicket_eq_none.mp h t ht)
  · rcases findTicket_some h with ⟨hu, hid⟩
    rw [ticket_eq_of_id hinv hu ht hid]

theorem holder_not_in_queue {lm : LMState} (hinv : Inv lm) {id : Nat}
    (h : lm.currentLock = some id) : id ∉ lm.queue := by
  intro hmem
  rcases hinv.holder_granted id h with ⟨t, ht, hid, hg⟩
  rcases hinv.queue_waiting id hmem with ⟨u, hu, huid, hw⟩
  have : t = u := ticket_eq_of_id hinv ht hu (hid.trans huid.symm)
  rw [this, hw] at hg
  exact TicketStatus.noConfusion hg

theorem queue_ids_lt {lm : LMState} (hinv : Inv lm) {id : Nat} (h : id ∈ lm.queue) :
    id < lm.nextId := by
  rcases hinv.queue_waiting id h with ⟨t, ht, rfl, _⟩
  exact hinv.ids_lt t ht

theorem inv_init : Inv initState.lm := by
  constructor <;> simp [initState]


theorem tryGrantNext_inv {cfg : Config} {now : Nat} {lm : LMState} (hinv : Inv lm) :
    Inv (tryGrantNext cfg now lm) := by
  rcases hcl : lm.currentLock with _ | cur
  · rcases hq : lm.queue with _ | ⟨h, rest⟩
    · simpa [tryGrantNext, hcl, hq] using hinv
    · -- grant the head of the queue
      rcases hinv.queue_waiting h (by rw [hq]; exact List.mem_cons_self h rest)
        with ⟨t, htmem, htid, htw⟩
      have hgid : ∀ u ∈ lm.tickets, u.ticketID = h →
          (Ticket.grant u now cfg.lockMaxDuration).ticketID = u.ticketID :=
        fun u _ _ => rfl
      have hmem' : ∀ {u : Ticket}, u ∈ updateTicket lm.tickets h
          (fun v => v.grant now cfg.lockMaxDuration) →
          (u = t.grant now cfg.lockMaxDuration ∧ u.ticketID = h) ∨
            (u ∈ lm.tickets ∧ u.ticketID ≠ h) := by
        intro u hu
        rcases mem_updateTicket.mp hu with ⟨v, hv, rfl⟩
        by_cases hvid : v.ticketID = h
        · left
          have : v = t := ticket_eq_of_id hinv hv htmem (hvid.trans htid.symm)
          subst this
          simp [hvid, Ticket.grant]
        · right
          simpa [hvid] using hv
      have hrest_nd : rest.Nodup := by
        have := hinv.queue_nodup
        rw [hq] at this
        exact this.of_cons
      have hh_rest : h ∉ rest := by
        have := hinv.queue_nodup
        rw [hq] at this
        exact (List.nodup_cons.mp this).1
      simp only [tryGrantNext, hcl, hq]
      constructor
      · intro u hu
        rcases hmem' hu with ⟨rfl, hid⟩ | ⟨humem, _⟩
        · simpa [hid.symm, htid] using hinv.ids_lt t htmem
        · exact hinv.ids_lt u humem
      · simpa [updateTicket_map_id hgid] using hinv.ids_nodup
      · intro u hu
        rcases hmem' hu with ⟨rfl, _⟩ | ⟨humem, _⟩
        · right; rfl
        · exact hinv.live u humem
      · intro u hu hg
        rcases hmem' hu with ⟨rfl, hid⟩ | ⟨humem, hne⟩
        · simpa using hid.symm
        · exact absurd (hinv.granted_holder u humem hg) (by rw [hcl]; simp)
      · intro id hid
        refine ⟨t.grant now cfg.lockMaxDuration, ?_, ?_, rfl⟩
        · apply mem_updateTicket.mpr
          exact ⟨t, htmem, by simp [htid]⟩
        · simpa [Ticket.grant] using htid.trans (Option.some.inj hid)
      · intro id hid
        have hid_rest : id ∈ lm.queue := by rw [hq]; exact List.mem_cons_of_mem h hid
        rcases hinv.queue_waiting id hid_rest with ⟨u, hu, huid, huw⟩
        refine ⟨u, ?_, huid, huw⟩
        apply mem_updateTicket.mpr
        refine ⟨u, hu, ?_⟩
        have : u.ticketID ≠ h := by
          intro hc
          exact hh_rest (by rw [← hc, huid] at hid ⊢; exact (huid ▸ hid))
        simp [this]
      · intro u hu
        rcases hmem' hu with ⟨rfl, hid⟩ | ⟨humem, hne⟩
        · left; simpa using hid.symm
        · rcases hinv.mem_placed u humem with hc | hqq
          · rw [hcl] at hc; exact Option.noConfusion hc
          · right
            rw [hq] at hqq
            rcases List.mem_cons.mp hqq with hc | hr
            · exact absurd hc hne
            · exact hr
      · exact hrest_nd
      · intro u hu
        rcases hmem' hu with ⟨rfl, _⟩ | ⟨humem, _⟩
        · simpa [Ticket.key, Ticket.grant] using hinv.tk_complete t htmem
        · exact hinv.tk_complete u humem
      · intro p hp
        rcases hinv.tk_sound p hp with ⟨u, hu, hk, hid⟩
        by_cases huid : u.ticketID = h
        · refine ⟨t.grant now cfg.lockMaxDuration, ?_, ?_, ?_⟩
          · exact mem_updateTicket.mpr ⟨t, htmem, by simp [htid]⟩
          · have : u = t := ticket_eq_of_id hinv hu htmem (huid.trans htid.symm)
            subst this
            simpa [Ticket.key, Ticket.grant] using hk
          · have : u = t := ticket_eq_of_id hinv hu htmem (huid.trans htid.symm)
            subst this
            simpa using hid
        · exact ⟨u, mem_updateTicket.mpr ⟨u, hu, by simp [huid]⟩, hk, hid⟩
  · simpa [tryGrantNext, hcl] using hinv


theorem updateConst_inv {lm : LMState} (hinv : Inv lm) {tid : Nat} {t t' : Ticket}
    (hfind : findTicket lm.tickets tid = some t)
    (hid : t'.ticketID = t.ticketID) (hkey : t'.key = t.key) (hstat : t'.status = t.status) :
    Inv { lm with tickets := updateTicket lm.tickets tid (fun _ => t') } := by
  rcases findTicket_some hfind with ⟨htmem, htid⟩
  have hf : ∀ v ∈ lm.tickets, v.ticketID = tid → ((fun _ => t') v).ticketID = v.ticketID := by
    intro v hv hvid
    have hv_t : v = t := ticket_eq_of_id hinv hv htmem (hvid.trans htid.symm)
    subst hv_t
    simpa using hid
  have hmem' : ∀ {u : Ticket}, u ∈ updateTicket lm.tickets tid (fun _ => t') →
      u = t' ∨ (u ∈ lm.tickets ∧ u.ticketID ≠ tid) := by
    intro u hu
    rcases mem_updateTicket.mp hu with ⟨v, hv, rfl⟩
    by_cases hvid : v.ticketID = tid
    · left; simp [hvid]
    · right; simpa [hvid] using hv
  have ht'mem : t' ∈ updateTicket lm.tickets tid (fun _ => t') :=
    mem_updateTicket.mpr ⟨t, htmem, by simp [htid]⟩
  constructor
  · intro u hu
    rcases hmem' hu with rfl | ⟨hm, _⟩
    · exact lt_of_eq_of_lt hid (hinv.ids_lt t htmem)
    · exact hinv.ids_lt u hm
  · simpa [updateTicket_map_id hf] using hinv.ids_nodup
  · intro u hu
    rcases hmem' hu with rfl | ⟨hm, _⟩
    · rw [hstat]; exact hinv.live t htmem
    · exact hinv.live u hm
  · intro u hu hg
    rcases hmem' hu with rfl | ⟨hm, _⟩
    · rw [hid]
      exact hinv.granted_holder t htmem (hstat ▸ hg)
    · exact hinv.granted_holder u hm hg
  · intro id hcl
    rcases hinv.holder_granted id hcl with ⟨u, hm, huid, hug⟩
    by_cases huid' : u.ticketID = tid
    · have hu_t : u = t := ticket_eq_of_id hinv hm htmem (huid'.trans htid.symm)
      refine ⟨t', ht'mem, ?_, ?_⟩
      · rw [hid, ← hu_t]; exact huid
      · rw [hstat, ← hu_t]; exact hug
    · exact ⟨u, mem_updateTicket.mpr ⟨u, hm, by simp [huid']⟩, huid, hug⟩
  · intro id hq
    rcases hinv.queue_waiting id hq with ⟨u, hm, huid, huw⟩
    by_cases huid' : u.ticketID = tid
    · have hu_t : u = t := ticket_eq_of_id hinv hm htmem (huid'.trans htid.symm)
      refine ⟨t', ht'mem, ?_, ?_⟩
      · rw [hid, ← hu_t]; exact huid
      · rw [hstat, ← hu_t]; exact huw
    · exact ⟨u, mem_updateTicket.mpr ⟨u, hm, by simp [huid']⟩, huid, huw⟩
  · intro u hu
    rcases hmem' hu with rfl | ⟨hm, _⟩
    · rw [hid]
      exact hinv.mem_placed t htmem
    · exact hinv.mem_placed u hm
  · exact hinv.queue_nodup
  · intro u hu
    rcases hmem' hu with rfl | ⟨hm, _⟩
    · rw [hkey, hid]
      exact hinv.tk_complete t htmem
    · exact hinv.tk_complete u hm
  · intro p hp
    rcases hinv.tk_sound p hp with ⟨u, hm, hk, hpid⟩
    by_cases huid' : u.ticketID = tid
    · have hu_t : u = t := ticket_eq_of_id hinv hm htmem (huid'.trans htid.symm)
      exact ⟨t', ht'mem, by rw [hk, hu_t, ← hkey], by rw [hpid, hu_t, ← hid]⟩
    · exact ⟨u, mem_updateTicket.mpr ⟨u, hm, by simp [huid']⟩, hk, hpid⟩

theorem dropHolder_inv {lm : LMState} (hinv : Inv lm) {tid : Nat} {t : Ticket}
    (hcl : lm.currentLock = some tid) (hfind : findTicket lm.tickets tid = some t) :
    Inv { lm with currentLock := none,
                  tickets := removeTicket lm.tickets tid,
                  threadKeys := tkErase lm.threadKeys t.key } := by
  rcases findTicket_some hfind with ⟨htmem, htid⟩
  constructor
  · intro u hu; exact hinv.ids_lt u (mem_removeTicket.mp hu).1
  · rw [removeTicket_map_ids]; exact hinv.ids_nodup.filter _
  · intro u hu; exact hinv.live u (mem_removeTicket.mp hu).1
  · intro u hu hg
    rcases mem_removeTicket.mp hu with ⟨hm, hne⟩
    have := hinv.granted_holder u hm hg
    rw [hcl] at this
    exact absurd (Option.some.inj this).symm hne
  · intro id h; exact Option.noConfusion h
  · intro id hq
    rcases hinv.queue_waiting id hq with ⟨u, hm, huid, huw⟩
    have hne : u.ticketID ≠ tid :=
      fun hc => holder_not_in_queue hinv hcl ((huid.symm.trans hc) ▸ hq)
    exact ⟨u, mem_removeTicket.mpr ⟨hm, hne⟩, huid, huw⟩
  · intro u hu
    rcases mem_removeTicket.mp hu with ⟨hm, hne⟩
    rcases hinv.mem_placed u hm with hcu | hqu
    · rw [hcl] at hcu
      exact absurd (Option.some.inj hcu).symm hne
    · right; exact hqu
  · exact hinv.queue_nodup
  · intro u hu
    rcases mem_removeTicket.mp hu with ⟨hm, hne⟩
    have hkne : u.key ≠ t.key := by
      intro hk
      have h1 := hinv.tk_complete u hm
      have h2 := hinv.tk_complete t htmem
      rw [hk] at h1
      exact hne ((Option.some.inj (h1.symm.trans h2)).trans htid)
    rw [tkLookup_tkErase_ne hkne]
    exact hinv.tk_complete u hm
  · intro p hp
    rcases mem_tkErase.mp hp with ⟨hm, hpk⟩
    rcases hinv.tk_sound p hm with ⟨u, hum, hk, hpid⟩
    have hne : u.ticketID ≠ tid := by
      intro hc
      have hu_t : u = t := ticket_eq_of_id hinv hum htmem (hc.trans htid.symm)
      exact hpk (hk.trans (by rw [hu_t]))
    exact ⟨u, mem_removeTicket.mpr ⟨hum, hne⟩, hk, hpid⟩


theorem reap_state_eq {lm : LMState} {tid : Nat} {t : Ticket} (htid : t.ticketID = tid)
    {g : Ticket → Ticket} (hgid : (g t).ticketID = t.ticketID) (hgkey : (g t).key = t.key) :
    cleanupTicket
      { lm with tickets := updateTicket lm.tickets tid (fun _ => g t), currentLock := none }
      (g t)
    = { lm with currentLock := none,
                tickets := removeTicket lm.tickets tid,
                threadKeys := tkErase lm.threadKeys t.key } := by
  have hf : ∀ v ∈ lm.tickets, v.ticketID = tid → ((fun _ => g t) v).ticketID = v.ticketID := by
    intro v _ hvid
    simp only []
    rw [hgid, htid, hvid]
  simp only [cleanupTicket, hgid, hgkey, htid]
  rw [removeTicket_updateTicket hf]

theorem checkLock_inv {cfg : Config} {now tid : Nat} {lm : LMState} (hinv : Inv lm) :
    Inv (checkLock cfg now tid lm).2 := by
  rcases hfind : findTicket lm.tickets tid with _ | t
  · simpa [checkLock, hfind] using hinv
  · have key : ∀ t2 : Ticket, t2.ticketID = t.ticketID → t2.key = t.key →
        t2.status = t.status →
        Inv { lm with tickets := updateTicket lm.tickets tid (fun _ => t2) } :=
      fun t2 h1 h2 h3 => updateConst_inv hinv hfind h1 h2 h3
    simp only [checkLock, hfind]
    by_cases h1 : (cfg.ticketTTLOnPoll && t.isWaiting) = true
    · by_cases h2 : (Ticket.updatePollTime t now).isGranted = true
      · simp only [if_pos h1, if_pos h2]; exact key _ rfl rfl rfl
      · simp only [if_pos h1, if_neg h2]; exact key _ rfl rfl rfl
    · by_cases h2 : t.isGranted = true
      · simp only [if_neg h1, if_pos h2]; exact key _ rfl rfl rfl
      · simp only [if_neg h1, if_neg h2]; exact key _ rfl rfl rfl

theorem extendLock_inv {cfg : Config} {now tid : Nat} {lm : LMState} (hinv : Inv lm) :
    Inv (extendLock cfg now tid lm).2 := by
  by_cases hext : cfg.lockExtendable
  · rcases hfind : findTicket lm.tickets tid with _ | t
    · simpa [extendLock, hext, hfind] using hinv
    · by_cases hcl : lm.currentLock = some tid
      · by_cases hcnt : cfg.lockExtendMax ≤ t.extendCount
        · simpa [extendLock, hext, hfind, hcl, hcnt] using hinv
        · have hstate : (extendLock cfg now tid lm).2
              = { lm with tickets := updateTicket lm.tickets tid (fun _ => t.extend now cfg.lockMaxDuration) } := by
            simp [extendLock, hext, hfind, hcl, hcnt]
          rw [hstate]
          exact updateConst_inv hinv hfind rfl rfl rfl
      · simpa [extendLock, hext, hfind, hcl] using hinv
  · simpa [extendLock, hext] using hinv

theorem releaseLock_inv {cfg : Config} {now tid : Nat} {lm : LMState} (hinv : Inv lm) :
    Inv (releaseLock cfg now tid lm).2 := by
  rcases hfind : findTicket lm.tickets tid with _ | t
  · simpa [releaseLock, hfind] using hinv
  · by_cases hcl : lm.currentLock = some tid
    · have htid := (findTicket_some hfind).2
      have hstate : (releaseLock cfg now tid lm).2
          = tryGrantNext cfg now
              { lm with currentLock := none,
                        tickets := removeTicket lm.tickets tid,
                        threadKeys := tkErase lm.threadKeys t.key } := by
        simp only [releaseLock, hfind, hcl, bne_self_eq_false, Bool.false_eq_true, if_false]
        rw [reap_state_eq htid (g := Ticket.release) rfl rfl]
      rw [hstate]
      exact tryGrantNext_inv (dropHolder_inv hinv hcl hfind)
    · simpa [releaseLock, hfind, hcl] using hinv

theorem expireCurrentLock_inv {cfg : Config} {now : Nat} {lm : LMState} (hinv : Inv lm) :
    Inv (expireCurrentLock cfg now lm).2 := by
  rcases hcl : lm.currentLock with _ | id
  · simpa [expireCurrentLock, hcl] using hinv
  · rcases hfind : findTicket lm.tickets id with _ | t
    · simpa [expireCurrentLock, hcl, hfind] using hinv
    · have htid := (findTicket_some hfind).2
      have hstate : (expireCurrentLock cfg now lm).2
          = tryGrantNext cfg now
              { lm with currentLock := none,
                        tickets := removeTicket lm.tickets id,
                        threadKeys := tkErase lm.threadKeys t.key } := by
        simp only [expireCurrentLock, hcl, hfind]
        rw [reap_state_eq htid (g := Ticket.expire) rfl rfl]
      rw [hstate]
      exact tryGrantNext_inv (dropHolder_inv hinv hcl hfind)

theorem checkGracePeriod_inv {cfg : Config} {now : Nat} {lm : LMState} (hinv : Inv lm) :
    Inv (checkGracePeriod cfg now lm).2 := by
  rcases hcl : lm.currentLock with _ | id
  · simpa [checkGracePeriod, hcl] using hinv
  · rcases hfind : findTicket lm.tickets id with _ | t
    · simpa [checkGracePeriod, hcl, hfind] using hinv
    · by_cases hg : t.isGracePeriodExpired now cfg.lockGracePeriod = true
      · have htid := (findTicket_some hfind).2
        have hstate : (checkGracePeriod cfg now lm).2
            = tryGrantNext cfg now
                { lm with currentLock := none,
                          tickets := removeTicket lm.tickets id,
                          threadKeys := tkErase lm.threadKeys t.key } := by
          simp only [checkGracePeriod, hcl, hfind, hg, if_true]
          rw [reap_state_eq htid (g := Ticket.expire) rfl rfl]
        rw [hstate]
        exact tryGrantNext_inv (dropHolder_inv hinv hcl hfind)
      · simpa [checkGracePeriod, hcl, hfind, hg] using hinv

theorem checkLockExpiry_inv {cfg : Config} {now : Nat} {lm : LMState} (hinv : Inv lm) :
    Inv (checkLockExpiry cfg now lm).2 := by
  rcases hcl : lm.currentLock with _ | id
  · simpa [checkLockExpiry, hcl] using hinv
  · rcases hfind : findTicket lm.tickets id with _ | t
    · simpa [checkLockExpiry, hcl, hfind] using hinv
    · by_cases hg : t.isLockExpired now = true
      · have htid := (findTicket_some hfind).2
        have hstate : (checkLockExpiry cfg now lm).2
            = tryGrantNext cfg now
                { lm with currentLock := none,
                          tickets := removeTicket lm.tickets id,
                          threadKeys := tkErase lm.threadKeys t.key } := by
          simp only [checkLockExpiry, hcl, hfind, hg, if_true]
          rw [reap_state_eq htid (g := Ticket.expire) rfl rfl]
        rw [hstate]
        exact tryGrantNext_inv (dropHolder_inv hinv hcl hfind)
      · simpa [checkLockExpiry, hcl, hfind, hg] using hinv


/-- Pointwise characterization of the queue walk: removed tickets are exactly
the queued tickets satisfying `p` (mutated by `g`), survivors keep their
relative order, the store loses exactly the removed tickets, and the
thread-key map loses exactly the removed keys. -/
theorem sweepQueue_spec {p : Ticket → Bool} {g : Ticket → Ticket}
    (hg_id : ∀ t, (g t).ticketID = t.ticketID) (hg_key : ∀ t, (g t).key = t.key) :
    ∀ (ids : List Nat) (ts : List Ticket) (tk : List (String × Nat)),
      ids.Nodup → (ts.map Ticket.ticketID).Nodup →
      sweepQueue p g ids ts tk
        = (((ids.filterMap (fun i => findTicket ts i)).filter p).map g,
           ids.filter (fun i => match findTicket ts i with
             | some t => !(p t)
             | none => true),
           ts.filter (fun t => !(decide (t.ticketID ∈ ids) && p t)),
           (((ids.filterMap (fun i => findTicket ts i)).filter p).map g).foldl
             (fun acc u => tkErase acc u.key) tk) := by
  intro ids
  induction ids with
  | nil =>
    intro ts tk _ _
    simp [sweepQueue]
  | cons id rest ih =>
    intro ts tk hids hts
    have hid_rest : id ∉ rest := (List.nodup_cons.mp hids).1
    have hrest : rest.Nodup := (List.nodup_cons.mp hids).2
    rcases hfind : findTicket ts id with _ | t
    · have hnone : ∀ u ∈ ts, u.ticketID ≠ id := findTicket_eq_none.mp hfind
      have hih := ih ts tk hrest hts
      simp only [sweepQueue, hfind, hih]
      simp only [Prod.mk.injEq]
      refine ⟨?_, ?_, ?_, ?_⟩
      · rw [List.filterMap_cons, hfind]
      · rw [List.filter_cons, hfind]
        simp
      · refine List.filter_congr ?_
        intro u hu
        simp [List.mem_cons, hnone u hu]
      · rw [List.filterMap_cons, hfind]
    · have htid : t.ticketID = id := (findTicket_some hfind).2
      have htmem : t ∈ ts := (findTicket_some hfind).1
      have hfind_rest : ∀ i ∈ rest, findTicket (removeTicket ts id) i = findTicket ts i := by
        intro i hi
        exact findTicket_removeTicket_ne (fun hc => hid_rest (hc ▸ hi))
      by_cases hp : p t = true
      · have hts1 : removeTicket (updateTicket ts id (fun _ => g t)) id = removeTicket ts id := by
          refine removeTicket_updateTicket ?_
          intro v _ hv
          simp only [hg_id, htid, hv]
        have hts1_nodup : ((removeTicket ts id).map Ticket.ticketID).Nodup := by
          rw [removeTicket_map_ids]
          exact hts.filter _
        have hih := ih (removeTicket ts id) (tkErase tk (Ticket.key t)) hrest hts1_nodup
        have hfm : (rest.filterMap (fun i => findTicket (removeTicket ts id) i))
            = rest.filterMap (fun i => findTicket ts i) :=
          List.filterMap_congr hfind_rest
        simp only [sweepQueue, hfind, hp, if_true, hts1, hg_key, hih]
        simp only [Prod.mk.injEq]
        refine ⟨?_, ?_, ?_, ?_⟩
        · rw [hfm, List.filterMap_cons, hfind, List.filter_cons, hp]
          simp
        · rw [List.filter_cons, hfind]
          simp only [hp, Bool.not_true, Bool.false_eq_true, if_false]
          refine List.filter_congr ?_
          intro i hi
          rw [hfind_rest i hi]
        · rw [show removeTicket ts id = ts.filter (fun u => u.ticketID != id) from rfl,
            List.filter_filter]
          refine List.filter_congr ?_
          intro u hu
          by_cases huid : u.ticketID = id
          · have hu_t : u = t := List.inj_on_of_nodup_map hts hu htmem (by rw [huid, htid])
            subst hu_t
            simp [List.mem_cons, huid, hp]
          · simp [List.mem_cons, huid]
        · rw [hfm, List.filterMap_cons, hfind, List.filter_cons, hp]
          simp [hg_key]
      · have hp' : p t = false := by simpa using hp
        have hih := ih ts tk hrest hts
        simp only [sweepQueue, hfind, hp', Bool.false_eq_true, if_false, hih]
        simp only [Prod.mk.injEq]
        refine ⟨?_, ?_, ?_, ?_⟩
        · rw [List.filterMap_cons, hfind, List.filter_cons, hp']
          simp
        · rw [List.filter_cons, hfind]
          simp [hp']
        · refine List.filter_congr ?_
          intro u hu
          by_cases huid : u.ticketID = id
          · have hu_t : u = t := List.inj_on_of_nodup_map hts hu htmem (by rw [huid, htid])
            subst hu_t
            simp [List.mem_cons, huid, hp']
          · simp [List.mem_cons, huid]
        · rw [List.filterMap_cons, hfind, List.filter_cons, hp']
          simp


theorem tkLookup_foldl_tkErase_ne {l : List Ticket} {tk : List (String × Nat)} {k : String}
    (h : ∀ u ∈ l, k ≠ u.key) :
    tkLookup (l.foldl (fun acc u => tkErase acc u.key) tk) k = tkLookup tk k := by
  induction l generalizing tk with
  | nil => rfl
  | cons u l ih =>
    rw [List.foldl_cons, ih (fun v hv => h v (List.mem_cons_of_mem u hv))]
    exact tkLookup_tkErase_ne (h u (List.mem_cons_self u l))

theorem mem_foldl_tkErase {l : List Ticket} {tk : List (String × Nat)} {q : String × Nat} :
    q ∈ l.foldl (fun acc u => tkErase acc u.key) tk ↔ q ∈ tk ∧ ∀ u ∈ l, q.1 ≠ u.key := by
  induction l generalizing tk with
  | nil => simp
  | cons u l ih =>
    rw [List.foldl_cons, ih, mem_tkErase]
    constructor
    · rintro ⟨⟨hq, hk⟩, hrest⟩
      refine ⟨hq, ?_⟩
      intro v hv
      rcases List.mem_cons.mp hv with rfl | hv'
      · exact hk
      · exact hrest v hv'
    · rintro ⟨hq, hall⟩
      exact ⟨⟨hq, hall u (List.mem_cons_self u l)⟩,
        fun v hv => hall v (List.mem_cons_of_mem u hv)⟩

/-- The queue sweep preserves the invariant (holder untouched, queue and store
filtered consistently, thread keys of removed tickets erased). -/
theorem sweep_inv {lm : LMState} (hinv : Inv lm) {P : Ticket → Bool} {g : Ticket → Ticket}
    (hg_id : ∀ t, (g t).ticketID = t.ticketID) (hg_key : ∀ t, (g t).key = t.key) :
    Inv { lm with
          queue := (sweepQueue P g lm.queue lm.tickets lm.threadKeys).2.1
          tickets := (sweepQueue P g lm.queue lm.tickets lm.threadKeys).2.2.1
          threadKeys := (sweepQueue P g lm.queue lm.tickets lm.threadKeys).2.2.2 } := by
  have hspec := sweepQueue_spec (p := P) (g := g) hg_id hg_key lm.queue lm.tickets
    lm.threadKeys hinv.queue_nodup hinv.ids_nodup
  rw [hspec]
  have mem_EX : ∀ {e : Ticket},
      e ∈ ((lm.queue.filterMap (fun i => findTicket lm.tickets i)).filter P).map g →
      ∃ w ∈ lm.tickets, w.ticketID ∈ lm.queue ∧ P w = true ∧ e = g w := by
    intro e he
    rcases List.mem_map.mp he with ⟨w, hw, rfl⟩
    rcases List.mem_filter.mp hw with ⟨hw', hPw⟩
    rcases List.mem_filterMap.mp hw' with ⟨i, hi, hfi⟩
    rcases findTicket_some hfi with ⟨hwm, hwid⟩
    exact ⟨w, hwm, hwid ▸ hi, hPw, rfl⟩
  have EX_mem : ∀ {w : Ticket}, w ∈ lm.tickets → w.ticketID ∈ lm.queue → P w = true →
      g w ∈ ((lm.queue.filterMap (fun i => findTicket lm.tickets i)).filter P).map g := by
    intro w hwm hwq hPw
    refine List.mem_map.mpr ⟨w, List.mem_filter.mpr ⟨?_, hPw⟩, rfl⟩
    exact List.mem_filterMap.mpr ⟨w.ticketID, hwq, find_of_mem hinv hwm⟩
  constructor
  · intro u hu
    exact hinv.ids_lt u (List.mem_filter.mp hu).1
  · exact ((List.filter_sublist _).map Ticket.ticketID).nodup hinv.ids_nodup
  · intro u hu
    exact hinv.live u (List.mem_filter.mp hu).1
  · intro u hu hg'
    exact hinv.granted_holder u (List.mem_filter.mp hu).1 hg'
  · intro id hcl
    rcases hinv.holder_granted id hcl with ⟨u, hum, huid, hug⟩
    refine ⟨u, List.mem_filter.mpr ⟨hum, ?_⟩, huid, hug⟩
    have : u.ticketID ∉ lm.queue := huid ▸ holder_not_in_queue hinv hcl
    simp [this]
  · intro i hq
    rcases List.mem_filter.mp hq with ⟨hiq, hfi⟩
    rcases hinv.queue_waiting i hiq with ⟨u, hum, huid, huw⟩
    have hfind_u : findTicket lm.tickets i = some u := huid ▸ find_of_mem hinv hum
    have hPu : P u = false := by
      rw [hfind_u] at hfi
      simpa using hfi
    refine ⟨u, List.mem_filter.mpr ⟨hum, ?_⟩, huid, huw⟩
    simp [hPu]
  · intro u hu
    rcases List.mem_filter.mp hu with ⟨hum, hsurv⟩
    rcases hinv.mem_placed u hum with hcl | huq
    · exact Or.inl hcl
    · right
      have hPu : P u = false := by
        by_contra hc
        have : P u = true := by simpa using hc
        simp [huq, this] at hsurv
      refine List.mem_filter.mpr ⟨huq, ?_⟩
      rw [find_of_mem hinv hum]
      simp [hPu]
  · exact hinv.queue_nodup.filter _
  · intro u hu
    rcases List.mem_filter.mp hu with ⟨hum, hsurv⟩
    rw [tkLookup_foldl_tkErase_ne]
    · exact hinv.tk_complete u hum
    · intro e he hk
      rcases mem_EX he with ⟨w, hwm, hwq, hPw, rfl⟩
      rw [hg_key] at hk
      have h1 := hinv.tk_complete u hum
      have h2 := hinv.tk_complete w hwm
      rw [hk] at h1
      have : u = w := ticket_eq_of_id hinv hum hwm (Option.some.inj (h1.symm.trans h2))
      subst this
      simp [hwq, hPw] at hsurv
  · intro q hq
    rcases mem_foldl_tkErase.mp hq with ⟨hqtk, hqkeys⟩
    rcases hinv.tk_sound q hqtk with ⟨u, hum, hqk, hqid⟩
    refine ⟨u, List.mem_filter.mpr ⟨hum, ?_⟩, hqk, hqid⟩
    by_contra hc
    rcases hPu : P u with _ | _
    · exact hc (by simp [hPu])
    · by_cases hmem : u.ticketID ∈ lm.queue
      · exact hqkeys (g u) (EX_mem hum hmem hPu) (hqk.trans (hg_key u).symm)
      · exact hc (by simp [hmem])


theorem expireWaitingTickets_inv {cfg : Config} {now : Nat} {lm : LMState} (hinv : Inv lm) :
    Inv (expireWaitingTickets cfg now lm).2 := by
  have hstate : (expireWaitingTickets cfg now lm).2
      = { lm with
          queue := (sweepQueue (fun t => t.isTTLExpired now cfg.ticketTTL) Ticket.expire
            lm.queue lm.tickets lm.threadKeys).2.1
          tickets := (sweepQueue (fun t => t.isTTLExpired now cfg.ticketTTL) Ticket.expire
            lm.queue lm.tickets lm.threadKeys).2.2.1
          threadKeys := (sweepQueue (fun t => t.isTTLExpired now cfg.ticketTTL) Ticket.expire
            lm.queue lm.tickets lm.threadKeys).2.2.2 } := by
    rcases h : sweepQueue (fun t => t.isTTLExpired now cfg.ticketTTL) Ticket.expire
      lm.queue lm.tickets lm.threadKeys with ⟨a, b, c, d⟩
    simp [expireWaitingTickets, h]
  rw [hstate]
  exact sweep_inv hinv (fun _ => rfl) (fun _ => rfl)

theorem removeHolderIfTool_inv {toolID : String} {lm : LMState} (hinv : Inv lm) :
    Inv (removeHolderIfTool toolID lm).2 := by
  rcases hcl : lm.currentLock with _ | i
  · simpa [removeHolderIfTool, hcl] using hinv
  · rcases hfind : findTicket lm.tickets i with _ | t
    · simpa [removeHolderIfTool, hcl, hfind] using hinv
    · by_cases htool : (t.toolID == toolID) = true
      · have htid := (findTicket_some hfind).2
        have hdrop := dropHolder_inv hinv hcl hfind
        simp only [removeHolderIfTool, hcl, hfind, htool, if_true]
        simpa [cleanupTicket, htid] using hdrop
      · simpa [removeHolderIfTool, hcl, hfind, htool] using hinv

theorem removeToolTickets_inv {cfg : Config} {now : Nat} {toolID : String} {lm : LMState}
    (hinv : Inv lm) : Inv (removeToolTickets cfg now toolID lm).2 := by
  have h0 : Inv (removeHolderIfTool toolID lm).2 := removeHolderIfTool_inv hinv
  have hs := sweep_inv h0 (P := fun t => t.toolID == toolID) (g := id)
    (fun _ => rfl) (fun _ => rfl)
  simp only [removeToolTickets]
  split
  · exact hs
  · exact tryGrantNext_inv hs


theorem requestLock_new_inv {lm : LMState} (hinv : Inv lm) {toolID threadID : String}
    (now : Nat) (hex : existingLive lm (toolID ++ ":" ++ threadID) = none) :
    Inv { queue := lm.queue ++ [(newTicket lm.nextId toolID threadID now).ticketID]
          currentLock := lm.currentLock
          tickets := newTicket lm.nextId toolID threadID now :: lm.tickets
          threadKeys := tkInsert lm.threadKeys (toolID ++ ":" ++ threadID)
            (newTicket lm.nextId toolID threadID now).ticketID
          nextId := lm.nextId + 1 } := by
  set t0 := newTicket lm.nextId toolID threadID now with ht0
  have ht0_id : t0.ticketID = lm.nextId := rfl
  have ht0_key : t0.key = toolID ++ ":" ++ threadID := rfl
  have ht0_status : t0.status = .waiting := rfl
  have hkey_fresh : ∀ u ∈ lm.tickets, u.key ≠ toolID ++ ":" ++ threadID := by
    intro u hum hk
    have h1 := hinv.tk_complete u hum
    rw [hk] at h1
    have h2 := find_of_mem hinv hum
    rcases hinv.live u hum with hw | hg
    · simp [existingLive, h1, h2, Ticket.isWaiting, hw] at hex
    · simp [existingLive, h1, h2, Ticket.isGranted, Ticket.isWaiting, hg] at hex
  constructor
  · intro u hu
    rcases List.mem_cons.mp hu with rfl | hm
    · rw [ht0_id]; exact Nat.lt_succ_self _
    · exact Nat.lt_succ_of_lt (hinv.ids_lt u hm)
  · rw [List.map_cons, List.nodup_cons]
    refine ⟨?_, hinv.ids_nodup⟩
    intro hc
    rcases List.mem_map.mp hc with ⟨u, hm, hid⟩
    have := hinv.ids_lt u hm
    rw [hid, ht0_id] at this
    exact Nat.lt_irrefl _ this
  · intro u hu
    rcases List.mem_cons.mp hu with rfl | hm
    · exact Or.inl ht0_status
    · exact hinv.live u hm
  · intro u hu hg
    rcases List.mem_cons.mp hu with rfl | hm
    · rw [ht0_status] at hg
      exact TicketStatus.noConfusion hg
    · exact hinv.granted_holder u hm hg
  · intro i hi
    rcases hinv.holder_granted i hi with ⟨u, hm, huid, hug⟩
    exact ⟨u, List.mem_cons_of_mem t0 hm, huid, hug⟩
  · intro i hi
    rcases List.mem_append.mp hi with hq | hn
    · rcases hinv.queue_waiting i hq with ⟨u, hm, huid, huw⟩
      exact ⟨u, List.mem_cons_of_mem t0 hm, huid, huw⟩
    · have : i = t0.ticketID := by simpa using hn
      exact ⟨t0, List.mem_cons_self t0 lm.tickets, this.symm, ht0_status⟩
  · intro u hu
    rcases List.mem_cons.mp hu with rfl | hm
    · right
      exact List.mem_append.mpr (Or.inr (List.mem_singleton.mpr rfl))
    · rcases hinv.mem_placed u hm with hc | hq
      · exact Or.inl hc
      · exact Or.inr (List.mem_append.mpr (Or.inl hq))
  · rw [List.nodup_append]
    refine ⟨hinv.queue_nodup, List.nodup_singleton _, ?_⟩
    intro i hq hn
    have h1 := queue_ids_lt hinv hq
    have h2 : i = t0.ticketID := by simpa using hn
    rw [h2, ht0_id] at h1
    exact Nat.lt_irrefl _ h1
  · intro u hu
    rcases List.mem_cons.mp hu with rfl | hm
    · rw [ht0_key]
      exact tkLookup_tkInsert_self
    · rw [tkLookup_tkInsert_ne (hkey_fresh u hm)]
      exact hinv.tk_complete u hm
  · intro p hp
    rcases mem_tkInsert.mp hp with rfl | ⟨hm, hk⟩
    · exact ⟨t0, List.mem_cons_self t0 lm.tickets, ht0_key.symm, rfl⟩
    · rcases hinv.tk_sound p hm with ⟨u, hum, hk', hid⟩
      exact ⟨u, List.mem_cons_of_mem t0 hum, hk', hid⟩

theorem requestLock_inv {cfg : Config} {now : Nat} {toolID threadID : String} {s : SysState}
    (hinv : Inv s.lm) : Inv (requestLock cfg now toolID threadID s).2.lm := by
  by_cases hon : isOnline s.reg toolID = true
  · rcases hex : existingLive s.lm (toolID ++ ":" ++ threadID) with _ | t
    · have hnew := requestLock_new_inv hinv now hex
      simp only [requestLock, hon, Bool.not_true, Bool.false_eq_true, if_false, hex]
      exact tryGrantNext_inv hnew
    · simpa [requestLock, hon, hex] using hinv
  · have hon' : isOnline s.reg toolID = false := by simpa using hon
    simpa [requestLock, hon'] using hinv


theorem stepOp_inv {cfg : Config} {op : Op} {s : SysState} (hinv : Inv s.lm) :
    Inv (stepOp cfg op s).lm := by
  cases op with
  | register now id => exact hinv
  | heartbeat now id => exact hinv
  | unregister id => exact hinv
  | markOfflineSweep now => exact hinv
  | requestLock now toolID threadID => exact requestLock_inv hinv
  | checkLock now tid => exact checkLock_inv hinv
  | releaseLock now tid => exact releaseLock_inv hinv
  | extendLock now tid => exact extendLock_inv hinv
  | expireCurrentLock now => exact expireCurrentLock_inv hinv
  | expireWaitingTickets now => exact expireWaitingTickets_inv hinv
  | checkGracePeriod now => exact checkGracePeriod_inv hinv
  | checkLockExpiry now => exact checkLockExpiry_inv hinv
  | removeToolTickets now id => exact removeToolTickets_inv hinv

theorem reachable_inv {cfg : Config} {s : SysState} (h : Reachable cfg s) : Inv s.lm := by
  induction h with
  | init => exact inv_init
  | step op _ ih => exact stepOp_inv ih


/-! ### Position lemmas -/

theorem posInQueue_of_mem {q : List Nat} {tid : Nat} (h : tid ∈ q) :
    ∀ i : Nat, ∃ m : Nat, posInQueue q tid i = ((i + m + 1 : Nat) : Int) := by
  induction q with
  | nil => exact absurd h (List.not_mem_nil tid)
  | cons x q ih =>
    intro i
    by_cases hx : x = tid
    · exact ⟨0, by simp [posInQueue, hx]⟩
    · have h' : tid ∈ q := by
        rcases List.mem_cons.mp h with rfl | hq
        · exact absurd rfl hx
        · exact hq
      rcases ih h' (i + 1) with ⟨m, hm⟩
      refine ⟨m + 1, ?_⟩
      rw [posInQueue, if_neg (by simpa using hx), hm]
      push_cast
      ring

theorem getQueuePosition_ne_neg_one {lm : LMState} {tid : Nat}
    (h : lm.currentLock = some tid ∨ tid ∈ lm.queue) :
    getQueuePosition lm tid ≠ -1 := by
  rw [getQueuePosition]
  by_cases hcl : lm.currentLock == some tid
  · simp [hcl]
  · rw [if_neg (by simpa using hcl)]
    rcases h with hc | hq
    · exact absurd (by simp [hc]) hcl
    · rcases posInQueue_of_mem hq 0 with ⟨m, hm⟩
      rw [hm]
      omega

/-! ### Concrete execution used by the witnesses -/

/-- Default-flavoured configuration for the concrete executions below. -/
def cfg0 : Config :=
  { heartbeatTimeout := 300
    ticketTTL := 120
    ticketTTLOnPoll := true
    lockMaxDuration := 20
    lockExtendable := true
    lockExtendMax := 2
    lockGracePeriod := 5 }

/-- Register `T1` (at time 0) and request the lock for `(T1, th1)` (at time
1): the fresh ticket is granted immediately. -/
def sGrant : SysState :=
  stepOp cfg0 (.requestLock 1 "T1" "th1") (stepOp cfg0 (.register 0 "T1") initState)

theorem sGrant_reachable : Reachable cfg0 sGrant :=
  Reachable.step _ (Reachable.step _ Reachable.init)

/-- The ticket granted in `sGrant`. -/
def tGrant : Ticket :=
  { ticketID := 0
    toolID := "T1"
    threadID := "th1"
    requestedAt := 1
    status := .granted
    grantedAt := 1
    expiresAt := 21
    lastPollAt := 1
    extendCount := 0 }

/-! ### C1: mutual exclusion -/

/-- **C1**. Mutual exclusion: in every state reachable from the empty
lock-manager state by any finite sequence of operations, at most one ticket
has status `granted`, and any granted ticket occupies the holder slot. -/
theorem C1_mutual_exclusion {cfg : Config} {s : SysState} (h : Reachable cfg s) :
    (∀ t1 ∈ s.lm.tickets, ∀ t2 ∈ s.lm.tickets,
        t1.status = .granted → t2.status = .granted → t1 = t2) ∧
    (∀ t ∈ s.lm.tickets, t.status = .granted → s.lm.currentLock = some t.ticketID) := by
  have hinv := reachable_inv h
  refine ⟨?_, hinv.granted_holder⟩
  intro t1 h1 t2 h2 hg1 hg2
  have e1 := hinv.granted_holder t1 h1 hg1
  have e2 := hinv.granted_holder t2 h2 hg2
  exact ticket_eq_of_id hinv h1 h2 (Option.some.inj (e1.symm.trans e2))

/-- Witness for C1 at a concrete reachable state with a granted ticket: the
granted ticket occupies the holder slot. -/
theorem C1_mutual_exclusion_witness :
    sGrant.lm.currentLock = some tGrant.ticketID :=
  (C1_mutual_exclusion sGrant_reachable).2 tGrant (by decide) rfl

/-! ### C10: terminal tickets are unreachable -/

/-- **C10**. In every reachable state every stored ticket is live (waiting or
granted) and is the holder or a queue member, so its computed position is
never `-1`; and a `CheckLock` on any id absent from the ticket map (in
particular, any released or expired ticket, which is removed in the same
operation that retires it) returns `ticket_not_found`. -/
theorem C10_no_terminal_tickets {cfg : Config} {s : SysState} (h : Reachable cfg s) :
    (∀ t ∈ s.lm.tickets,
        (t.status = .waiting ∨ t.status = .granted) ∧
        (s.lm.currentLock = some t.ticketID ∨ t.ticketID ∈ s.lm.queue) ∧
        getQueuePosition s.lm t.ticketID ≠ -1) ∧
    (∀ tid : Nat, findTicket s.lm.tickets tid = none →
        ∀ now : Nat, (checkLock cfg now tid s.lm).1 = .error .ticketNotFound) := by
  have hinv := reachable_inv h
  constructor
  · intro t ht
    refine ⟨hinv.live t ht, hinv.mem_placed t ht, ?_⟩
    exact getQueuePosition_ne_neg_one (hinv.mem_placed t ht)
  · intro tid hfind now
    simp [checkLock, hfind]

/-- Witness for C10 at a concrete reachable state and ticket. -/
theorem C10_no_terminal_tickets_witness :
    (tGrant.status = .waiting ∨ tGrant.status = .granted) ∧
    getQueuePosition sGrant.lm tGrant.ticketID ≠ -1 ∧
    (checkLock cfg0 3 99 sGrant.lm).1 = .error .ticketNotFound :=
  ⟨((C10_no_terminal_tickets sGrant_reachable).1 tGrant (by decide)).1,
   ((C10_no_terminal_tickets sGrant_reachable).1 tGrant (by decide)).2.2,
   (C10_no_terminal_tickets sGrant_reachable).2 99 (by decide) 3⟩


/-! ### C3: idempotence of RequestLock -/

/-- **C3**. Idempotence: in every reachable state, if a live ticket exists for
the key `(tool_id, thread_id)` and the tool is online, `RequestLock` returns
that ticket with its current position and leaves the whole state unchanged;
hence two consecutive calls (at any clock values) return the same ticket id
and the same position. -/
theorem C3_requestLock_idempotent {cfg : Config} {s : SysState} (h : Reachable cfg s)
    {t : Ticket} (ht : t ∈ s.lm.tickets)
    (hlive : t.status = .waiting ∨ t.status = .granted)
    (hon : isOnline s.reg t.toolID = true) :
    ∀ now : Nat, requestLock cfg now t.toolID t.threadID s
      = (.ok (t, getQueuePosition s.lm t.ticketID), s) := by
  intro now
  have hinv := reachable_inv h
  have h1 : tkLookup s.lm.threadKeys (t.toolID ++ ":" ++ t.threadID) = some t.ticketID := by
    have := hinv.tk_complete t ht
    simpa [Ticket.key] using this
  have h2 := find_of_mem hinv ht
  have hex : existingLive s.lm (t.toolID ++ ":" ++ t.threadID) = some t := by
    rcases hlive with hw | hg
    · simp [existingLive, h1, h2, Ticket.isWaiting, hw]
    · simp [existingLive, h1, h2, Ticket.isWaiting, Ticket.isGranted, hg]
  simp [requestLock, hon, hex]

/-- Witness for C3: repeating the request for `(T1, th1)` in `sGrant` at
clock 2 returns the already granted ticket and does not change the state. -/
theorem C3_requestLock_idempotent_witness :
    requestLock cfg0 2 tGrant.toolID tGrant.threadID sGrant
      = (.ok (tGrant, getQueuePosition sGrant.lm tGrant.ticketID), sGrant) :=
  C3_requestLock_idempotent sGrant_reachable (t := tGrant) (by decide)
    (Or.inr rfl) (by decide) 2

/-! ### C6: ExtendLock error semantics -/

/-- **C6**. `ExtendLock` fails `extend_disabled` whenever the feature flag is
off (for every ticket id); otherwise `ticket_not_found` when the id is
absent, `not_lock_holder` when the ticket is not the current holder, and
`max_extend_reached` when `extend_count ≥ lock_extend_max`; every failure
leaves the state unchanged, and a success increments `extend_count` (so after
`lock_extend_max` successful extends the next call fails). -/
theorem C6_extendLock_errors (cfg : Config) (now tid : Nat) (lm : LMState) :
    (cfg.lockExtendable = false → extendLock cfg now tid lm = (.error .extendDisabled, lm)) ∧
    (cfg.lockExtendable = true → findTicket lm.tickets tid = none →
      extendLock cfg now tid lm = (.error .ticketNotFound, lm)) ∧
    (∀ t, cfg.lockExtendable = true → findTicket lm.tickets tid = some t →
      lm.currentLock ≠ some tid →
      extendLock cfg now tid lm = (.error .notLockHolder, lm)) ∧
    (∀ t, cfg.lockExtendable = true → findTicket lm.tickets tid = some t →
      lm.currentLock = some tid → cfg.lockExtendMax ≤ t.extendCount →
      extendLock cfg now tid lm = (.error .maxExtendReached, lm)) ∧
    (∀ t, cfg.lockExtendable = true → findTicket lm.tickets tid = some t →
      lm.currentLock = some tid → t.extendCount < cfg.lockExtendMax →
      (extendLock cfg now tid lm).1 = .ok (t.extend now cfg.lockMaxDuration) ∧
      (t.extend now cfg.lockMaxDuration).extendCount = t.extendCount + 1) := by
  refine ⟨?_, ?_, ?_, ?_, ?_⟩
  · intro hoff
    simp [extendLock, hoff]
  · intro hext hfind
    simp [extendLock, hext, hfind]
  · intro t hext hfind hcl
    simp [extendLock, hext, hfind, hcl]
  · intro t hext hfind hcl hcnt
    simp [extendLock, hext, hfind, hcl, hcnt]
  · intro t hext hfind hcl hcnt
    exact ⟨by simp [extendLock, hext, hfind, hcl, Nat.not_le.mpr hcnt], rfl⟩

/-- Witness for C6: the disabled flag rejects any id; in the granted state
`sGrant` the non-holder id 7 is rejected, and after the cap is reached the
extend fails. -/
theorem C6_extendLock_errors_witness :
    (extendLock { cfg0 with lockExtendable := false } 2 0 sGrant.lm
      = (.error .extendDisabled, sGrant.lm)) ∧
    (extendLock cfg0 2 7 sGrant.lm = (.error .ticketNotFound, sGrant.lm)) ∧
    (extendLock { cfg0 with lockExtendMax := 0 } 2 0 sGrant.lm
      = (.error .maxExtendReached, sGrant.lm)) :=
  ⟨(C6_extendLock_errors { cfg0 with lockExtendable := false } 2 0 sGrant.lm).1 rfl,
   (C6_extendLock_errors cfg0 2 7 sGrant.lm).2.1 rfl (by decide),
   (C6_extendLock_errors { cfg0 with lockExtendMax := 0 } 2 0 sGrant.lm).2.2.2.1 tGrant
     rfl (by decide) (by decide) (by decide)⟩

/-! ### C7: ReleaseLock semantics -/

/-- **C7**. `ReleaseLock` fails `ticket_not_found` when the id is absent and
`not_lock_holder` when the ticket is not the current holder, leaving the
state unchanged in both cases; on success the returned ticket is `released`,
the holder slot is cleared, the ticket is removed from the id and thread-key
indices, and the grant step then runs on the cleaned state (granting the
queue head when the queue is non-empty). -/
theorem C7_releaseLock_semantics (cfg : Config) (now tid : Nat) (lm : LMState) :
    (findTicket lm.tickets tid = none →
      releaseLock cfg now tid lm = (.error .ticketNotFound, lm)) ∧
    (∀ t, findTicket lm.tickets tid = some t → lm.currentLock ≠ some tid →
      releaseLock cfg now tid lm = (.error .notLockHolder, lm)) ∧
    (∀ t, findTicket lm.tickets tid = some t → lm.currentLock = some tid →
      releaseLock cfg now tid lm
        = (.ok t.release,
           tryGrantNext cfg now
             { lm with currentLock := none,
                       tickets := removeTicket lm.tickets tid,
                       threadKeys := tkErase lm.threadKeys t.key }) ∧
      t.release.status = .released ∧
      (∀ h1 rest, lm.queue = h1 :: rest →
        (releaseLock cfg now tid lm).2.currentLock = some h1 ∧
        (releaseLock cfg now tid lm).2.queue = rest)) := by
  refine ⟨?_, ?_, ?_⟩
  · intro hfind
    simp [releaseLock, hfind]
  · intro t hfind hcl
    simp [releaseLock, hfind, hcl]
  · intro t hfind hcl
    have htid := (findTicket_some hfind).2
    have hmain : releaseLock cfg now tid lm
        = (.ok t.release,
           tryGrantNext cfg now
             { lm with currentLock := none,
                       tickets := removeTicket lm.tickets tid,
                       threadKeys := tkErase lm.threadKeys t.key }) := by
      simp only [releaseLock, hfind, hcl, bne_self_eq_false, Bool.false_eq_true, if_false]
      rw [reap_state_eq htid (g := Ticket.release) rfl rfl]
    refine ⟨hmain, rfl, ?_⟩
    intro h1 rest hq
    rw [hmain]
    simp [tryGrantNext, hq]

/-- Witness for C7: releasing the granted ticket of `sGrant` succeeds and
returns the released record; releasing an absent id fails. -/
theorem C7_releaseLock_semantics_witness :
    (releaseLock cfg0 2 9 sGrant.lm = (.error .ticketNotFound, sGrant.lm)) ∧
    (releaseLock cfg0 2 0 sGrant.lm
        = (.ok tGrant.release,
           tryGrantNext cfg0 2
             { sGrant.lm with currentLock := none,
                              tickets := removeTicket sGrant.lm.tickets 0,
                              threadKeys := tkErase sGrant.lm.threadKeys tGrant.key })) :=
  ⟨(C7_releaseLock_semantics cfg0 2 9 sGrant.lm).1 (by decide),
   ((C7_releaseLock_semantics cfg0 2 0 sGrant.lm).2.2 tGrant (by decide) (by decide)).1⟩


/-! ### C5: extension semantics (each extend resets the expiry clock) -/

/-- **C5 (amended)**. Each successful `ExtendLock` at clock `n` sets the
holder's `expires_at` to `n + lock_max_duration` (a reset, not a cumulative
increment): after two successful extends at clocks `n1` and then `n2`,
`expires_at` equals `n2 + lock_max_duration` and `extend_count` has grown by
two; the advance relative to the grant-time expiry is therefore
`n2 - granted_at`, not `2 × lock_max_duration` in general. -/
theorem C5_extend_resets_expiry {cfg : Config} {lm : LMState} {tid : Nat} {t : Ticket}
    (hext : cfg.lockExtendable = true) (hfind : findTicket lm.tickets tid = some t)
    (hcl : lm.currentLock = some tid) (hcnt : t.extendCount + 1 < cfg.lockExtendMax)
    (n1 n2 : Nat) :
    (extendLock cfg n1 tid lm).1 = .ok (t.extend n1 cfg.lockMaxDuration) ∧
    (extendLock cfg n2 tid (extendLock cfg n1 tid lm).2).1
      = .ok ((t.extend n1 cfg.lockMaxDuration).extend n2 cfg.lockMaxDuration) ∧
    ((t.extend n1 cfg.lockMaxDuration).extend n2 cfg.lockMaxDuration).expiresAt
      = n2 + cfg.lockMaxDuration ∧
    ((t.extend n1 cfg.lockMaxDuration).extend n2 cfg.lockMaxDuration).extendCount
      = t.extendCount + 2 := by
  have htid := (findTicket_some hfind).2
  have hcnt1 : t.extendCount < cfg.lockExtendMax := Nat.lt_of_succ_lt hcnt
  have hstep1 : extendLock cfg n1 tid lm
      = (.ok (t.extend n1 cfg.lockMaxDuration),
         { lm with tickets := updateTicket lm.tickets tid (fun _ => t.extend n1 cfg.lockMaxDuration) }) := by
    simp [extendLock, hext, hfind, hcl, Nat.not_le.mpr hcnt1]
  have hfind1 : findTicket (updateTicket lm.tickets tid
      (fun _ => t.extend n1 cfg.lockMaxDuration)) tid
      = some (t.extend n1 cfg.lockMaxDuration) := by
    have hf : ∀ v ∈ lm.tickets, v.ticketID = tid →
        ((fun _ => t.extend n1 cfg.lockMaxDuration) v).ticketID = v.ticketID := by
      intro v _ hv
      show (t.extend n1 cfg.lockMaxDuration).ticketID = v.ticketID
      show t.ticketID = v.ticketID
      rw [htid, hv]
    rw [findTicket_updateTicket_self hf, hfind]
    rfl
  have hcnt2 : (t.extend n1 cfg.lockMaxDuration).extendCount < cfg.lockExtendMax := by
    show t.extendCount + 1 < cfg.lockExtendMax
    exact hcnt
  refine ⟨by rw [hstep1], ?_, rfl, rfl⟩
  rw [hstep1]
  simp [extendLock, hext, hfind1, hcl, Nat.not_le.mpr hcnt2]

/-- Witness for C5 (amended): in `sGrant` (granted at clock 1 with
`lock_max_duration = 20`), extending twice at clocks 5 and 9 yields
`expires_at = 29 = 9 + 20`. -/
theorem C5_extend_resets_expiry_witness :
    (extendLock cfg0 5 0 sGrant.lm).1 = .ok (tGrant.extend 5 cfg0.lockMaxDuration) ∧
    (extendLock cfg0 9 0 (extendLock cfg0 5 0 sGrant.lm).2).1
      = .ok ((tGrant.extend 5 cfg0.lockMaxDuration).extend 9 cfg0.lockMaxDuration) ∧
    ((tGrant.extend 5 cfg0.lockMaxDuration).extend 9 cfg0.lockMaxDuration).expiresAt
      = 9 + cfg0.lockMaxDuration ∧
    ((tGrant.extend 5 cfg0.lockMaxDuration).extend 9 cfg0.lockMaxDuration).extendCount
      = tGrant.extendCount + 2 :=
  C5_extend_resets_expiry (by decide) (by decide) (by decide) (by decide) 5 9

/-- **C5 counterexample**. The granted ticket of `sGrant` has
`expires_at = 21`; after two successful extends at clock 1 its `expires_at`
is still `21 = 1 + 20`, an advance of `0`, not `2 × lock_max_duration = 40`:
the claim that two extends advance the expiry by `2 × lock_max_duration`
relative to the grant-time expiry is false on this run. -/
theorem C5_counterexample :
    (findTicket sGrant.lm.tickets 0).map Ticket.expiresAt = some 21 ∧
    (extendLock cfg0 1 0 sGrant.lm).1.toOption.map Ticket.extendCount = some 1 ∧
    (extendLock cfg0 1 0 (extendLock cfg0 1 0 sGrant.lm).2).1.toOption.map
      Ticket.extendCount = some 2 ∧
    (findTicket (extendLock cfg0 1 0 (extendLock cfg0 1 0 sGrant.lm).2).2.tickets 0).map
      Ticket.expiresAt = some 21 ∧
    ¬(21 = 21 + 2 * cfg0.lockMaxDuration) := by
  refine ⟨by decide, by decide, by decide, by decide, by decide⟩


/-! ### C8: SweepWaitingTTL correctness -/

theorem expireWaitingTickets_eq (cfg : Config) (now : Nat) (lm : LMState) :
    expireWaitingTickets cfg now lm
      = ((sweepQueue (fun t => t.isTTLExpired now cfg.ticketTTL) Ticket.expire
            lm.queue lm.tickets lm.threadKeys).1,
         { lm with
           queue := (sweepQueue (fun t => t.isTTLExpired now cfg.ticketTTL) Ticket.expire
             lm.queue lm.tickets lm.threadKeys).2.1
           tickets := (sweepQueue (fun t => t.isTTLExpired now cfg.ticketTTL) Ticket.expire
             lm.queue lm.tickets lm.threadKeys).2.2.1
           threadKeys := (sweepQueue (fun t => t.isTTLExpired now cfg.ticketTTL) Ticket.expire
             lm.queue lm.tickets lm.threadKeys).2.2.2 }) := by
  rcases h : sweepQueue (fun t => t.isTTLExpired now cfg.ticketTTL) Ticket.expire
    lm.queue lm.tickets lm.threadKeys with ⟨a, b, c, d⟩
  simp [expireWaitingTickets, h]

theorem tkLookup_eq_none {tk : List (String × Nat)} {k : String}
    (h : ∀ p ∈ tk, p.1 ≠ k) : tkLookup tk k = none := by
  have hf : tk.find? (fun p => p.1 == k) = none :=
    List.find?_eq_none.mpr (by intro p hp; simpa using h p hp)
  rw [tkLookup, hf]
  rfl

/-- Holder (`(T1, a)`, granted at clock 1) plus two waiting tickets enqueued
at clocks 2 and 150. -/
def sC8 : SysState :=
  stepOp cfg0 (.requestLock 150 "T1" "c")
    (stepOp cfg0 (.requestLock 2 "T1" "b")
      (stepOp cfg0 (.requestLock 1 "T1" "a")
        (stepOp cfg0 (.register 0 "T1") initState)))

theorem sC8_reachable : Reachable cfg0 sC8 :=
  Reachable.step _ (Reachable.step _ (Reachable.step _ (Reachable.step _ Reachable.init)))

/-- **C8**. `ExpireWaitingTickets` expires and returns exactly the queued
tickets whose TTL lapsed (`now - last_poll_at > ticket_ttl`, the predicate
reducing to the pure clock comparison because queued tickets are waiting),
removes them from the queue and from both indices, preserves the relative
order of the surviving queue entries (the new queue is a filter of the old),
and leaves the holder slot unchanged; `last_poll_at` of a fresh ticket equals
`requested_at`, so the TTL clock of a never-polled ticket starts at enqueue. -/
theorem C8_sweep_waiting_ttl {cfg : Config} {s : SysState} (h : Reachable cfg s) (now : Nat) :
    (expireWaitingTickets cfg now s.lm).1
        = ((s.lm.queue.filterMap (fun i => findTicket s.lm.tickets i)).filter
            (fun t => t.isTTLExpired now cfg.ticketTTL)).map Ticket.expire ∧
    (expireWaitingTickets cfg now s.lm).2.queue
        = s.lm.queue.filter (fun i =>
            match findTicket s.lm.tickets i with
            | some t => !(t.isTTLExpired now cfg.ticketTTL)
            | none => true) ∧
    (expireWaitingTickets cfg now s.lm).2.currentLock = s.lm.currentLock ∧
    (expireWaitingTickets cfg now s.lm).2.tickets
        = s.lm.tickets.filter (fun t =>
            !(decide (t.ticketID ∈ s.lm.queue) && t.isTTLExpired now cfg.ticketTTL)) ∧
    (∀ t ∈ (expireWaitingTickets cfg now s.lm).1,
        t.status = .expired ∧
        findTicket (expireWaitingTickets cfg now s.lm).2.tickets t.ticketID = none ∧
        tkLookup (expireWaitingTickets cfg now s.lm).2.threadKeys t.key = none) ∧
    (∀ t ∈ s.lm.tickets, t.ticketID ∈ s.lm.queue →
        t.isTTLExpired now cfg.ticketTTL = decide (now - t.lastPollAt > cfg.ticketTTL)) ∧
    (∀ (id : Nat) (tool thread : String) (n0 : Nat),
        (newTicket id tool thread n0).lastPollAt = (newTicket id tool thread n0).requestedAt) := by
  have hinv := reachable_inv h
  have hspec := sweepQueue_spec (p := fun t => t.isTTLExpired now cfg.ticketTTL)
    (g := Ticket.expire) (fun _ => rfl) (fun _ => rfl) s.lm.queue s.lm.tickets
    s.lm.threadKeys hinv.queue_nodup hinv.ids_nodup
  rw [expireWaitingTickets_eq, hspec]
  refine ⟨rfl, rfl, rfl, rfl, ?_, ?_, fun _ _ _ _ => rfl⟩
  · intro t ht
    rcases List.mem_map.mp ht with ⟨w, hw, rfl⟩
    rcases List.mem_filter.mp hw with ⟨hw', hPw⟩
    rcases List.mem_filterMap.mp hw' with ⟨i, hi, hfi⟩
    rcases findTicket_some hfi with ⟨hwm, hwid⟩
    refine ⟨rfl, ?_, ?_⟩
    · rw [findTicket_eq_none]
      intro u hu hc
      rcases List.mem_filter.mp hu with ⟨hum, hsurv⟩
      have hu_w : u = w := ticket_eq_of_id hinv hum hwm hc
      subst hu_w
      simp [hwid ▸ hi, hPw] at hsurv
    · refine tkLookup_eq_none ?_
      intro q hq hc
      have hmem := mem_foldl_tkErase.mp hq
      exact hmem.2 w.expire (List.mem_map.mpr ⟨w, hw, rfl⟩) hc
  · intro t htm hq
    rcases hinv.queue_waiting t.ticketID hq with ⟨u, hum, huid, huw⟩
    have hu_t : u = t := ticket_eq_of_id hinv hum htm huid
    subst hu_t
    simp [Ticket.isTTLExpired, Ticket.isWaiting, huw]

/-- Witness for C8 on a concrete reachable state: with tickets enqueued at
clocks 2 and 150 behind the holder, sweeping at clock 200 (TTL 120) expires
exactly the first queued ticket and keeps the second and the holder. -/
theorem C8_sweep_waiting_ttl_witness :
    (expireWaitingTickets cfg0 200 sC8.lm).1
        = ((sC8.lm.queue.filterMap (fun i => findTicket sC8.lm.tickets i)).filter
            (fun t => t.isTTLExpired 200 cfg0.ticketTTL)).map Ticket.expire ∧
    (expireWaitingTickets cfg0 200 sC8.lm).2.queue
        = sC8.lm.queue.filter (fun i =>
            match findTicket sC8.lm.tickets i with
            | some t => !(t.isTTLExpired 200 cfg0.ticketTTL)
            | none => true) ∧
    (expireWaitingTickets cfg0 200 sC8.lm).2.currentLock = sC8.lm.currentLock :=
  let hfull := C8_sweep_waiting_ttl sC8_reachable 200
  ⟨hfull.1, hfull.2.1, hfull.2.2.1⟩


/-! ### C2: the grant step does not check tool liveness (code bug run) -/

/-- Register `T1` and `T2`; `(T1, th1)` gets the lock; `(T2, th1)` queues;
`T2` unregisters (transitions offline); `T1` releases. -/
def sC2 : SysState :=
  execOps cfg0 initState
    [.register 0 "T1", .register 0 "T2", .requestLock 1 "T1" "th1",
     .requestLock 2 "T2" "th1", .unregister "T2", .releaseLock 3 0]

/-- **C2 (failing run)**. After `T2` unregisters, its queued ticket (id 1) is
still in the queue — `Unregister` only marks the tool offline and removes no
tickets — and the grant step fired by `T1`'s release hands the lock to that
ticket without any online check: the state holds a granted ticket whose tool
is offline, contradicting the claim. -/
theorem C2_grant_to_offline_tool :
    isOnline sC2.reg "T2" = false ∧
    sC2.lm.currentLock = some 1 ∧
    (findTicket sC2.lm.tickets 1).map Ticket.status = some .granted ∧
    (findTicket sC2.lm.tickets 1).map Ticket.toolID = some "T2" := by
  refine ⟨by decide, by decide, by decide, by decide⟩


/-! ### C4: FIFO fairness machinery -/

/-- `a` occurs strictly before `b` in `l`. -/
def Precedes (a b : Nat) (l : List Nat) : Prop :=
  ∃ l1 l2 l3, l = l1 ++ a :: l2 ++ b :: l3

theorem Precedes.mem_right {a b : Nat} {l : List Nat} (h : Precedes a b l) : b ∈ l := by
  rcases h with ⟨l1, l2, l3, rfl⟩
  simp

theorem Precedes.mem_left {a b : Nat} {l : List Nat} (h : Precedes a b l) : a ∈ l := by
  rcases h with ⟨l1, l2, l3, rfl⟩
  simp

theorem Precedes.append {a b : Nat} {l l' : List Nat} (h : Precedes a b l) :
    Precedes a b (l ++ l') := by
  rcases h with ⟨l1, l2, l3, rfl⟩
  exact ⟨l1, l2, l3 ++ l', by simp⟩

theorem Precedes.filter {a b : Nat} {l : List Nat} (p : Nat → Bool)
    (h : Precedes a b l) (ha : a ∈ l.filter p) (hb : b ∈ l.filter p) :
    Precedes a b (l.filter p) := by
  rcases h with ⟨l1, l2, l3, rfl⟩
  have hpa : p a = true := (List.mem_filter.mp ha).2
  have hpb : p b = true := (List.mem_filter.mp hb).2
  refine ⟨l1.filter p, l2.filter p, l3.filter p, ?_⟩
  simp [List.filter_append, List.filter_cons, hpa, hpb]

theorem Precedes.head_ne {a b h0 : Nat} {rest : List Nat}
    (hnd : (h0 :: rest).Nodup) (hp : Precedes a b (h0 :: rest)) : h0 ≠ b := by
  rintro rfl
  rcases hp with ⟨l1, l2, l3, heq⟩
  have hb_mem : h0 ∈ rest := by
    cases l1 with
    | nil =>
      simp only [List.nil_append] at heq
      obtain ⟨h1, h2⟩ := List.cons_eq_cons.mp heq
      rw [h2]
      simp
    | cons x l1' =>
      simp only [List.cons_append] at heq
      obtain ⟨h1, h2⟩ := List.cons_eq_cons.mp heq
      rw [h2]
      simp
  exact (List.nodup_cons.mp hnd).1 hb_mem

theorem Precedes.pop {a b h0 : Nat} {rest : List Nat} (hnd : (h0 :: rest).Nodup)
    (hp : Precedes a b (h0 :: rest)) (ha : a ∈ rest) : Precedes a b rest := by
  rcases hp with ⟨l1, l2, l3, heq⟩
  cases l1 with
  | nil =>
    simp only [List.nil_append] at heq
    obtain ⟨h1, h2⟩ := List.cons_eq_cons.mp heq
    exact absurd (h1.symm ▸ ha) (List.nodup_cons.mp hnd).1
  | cons x l1' =>
    simp only [List.cons_append] at heq
    obtain ⟨h1, h2⟩ := List.cons_eq_cons.mp heq
    exact ⟨l1', l2, l3, h2⟩

/-- FIFO step invariant: either `a` is still queued strictly ahead of `b`, or
`b` is out of the queue, is not the holder, and (ids being fresh below
`nextId`) can never be enqueued again. -/
def JState (a b : Nat) (lm : LMState) : Prop :=
  Precedes a b lm.queue ∨ (b ∉ lm.queue ∧ lm.currentLock ≠ some b ∧ b < lm.nextId)

theorem JState.not_holder {a b : Nat} {lm : LMState} (hinv : Inv lm) (hJ : JState a b lm) :
    lm.currentLock ≠ some b := by
  rcases hJ with hP | ⟨_, hne, _⟩
  · intro hc
    exact holder_not_in_queue hinv hc hP.mem_right
  · exact hne

theorem tryGrantNext_queue_sub {cfg : Config} {now : Nat} {lm : LMState} {a : Nat}
    (h : a ∈ (tryGrantNext cfg now lm).queue) : a ∈ lm.queue := by
  rcases hcl : lm.currentLock with _ | c
  · rcases hq : lm.queue with _ | ⟨h0, rest⟩
    · simpa [tryGrantNext, hcl, hq] using h
    · have ha' : a ∈ rest := by simpa [tryGrantNext, hcl, hq] using h
      exact hq ▸ List.mem_cons_of_mem h0 ha'
  · simpa [tryGrantNext, hcl] using h

theorem JState.tryGrant {a b : Nat} {cfg : Config} {now : Nat} {lm : LMState}
    (hinv : Inv lm) (hJ : JState a b lm) (ha : a ∈ (tryGrantNext cfg now lm).queue) :
    JState a b (tryGrantNext cfg now lm) := by
  rcases hcl : lm.currentLock with _ | c
  · rcases hq : lm.queue with _ | ⟨h0, rest⟩
    · simpa [tryGrantNext, hcl, hq] using hJ
    · have ha' : a ∈ rest := by simpa [tryGrantNext, hcl, hq] using ha
      have hnd : (h0 :: rest).Nodup := hq ▸ hinv.queue_nodup
      rcases hJ with hP | ⟨hbq, _, hbn⟩
      · rw [hq] at hP
        left
        simpa [tryGrantNext, hcl, hq] using hP.pop hnd ha'
      · right
        rw [hq] at hbq
        refine ⟨?_, ?_, ?_⟩ <;> simp only [tryGrantNext, hcl, hq]
        · exact fun hc => hbq (List.mem_cons_of_mem h0 hc)
        · intro hc
          exact hbq (by simp [Option.some.inj hc])
        · exact hbn
  · simpa [tryGrantNext, hcl] using hJ

theorem JState_frame {a b : Nat} {lm : LMState} (lm' : LMState) (hJ : JState a b lm)
    (hq : lm'.queue = lm.queue)
    (hcl : lm'.currentLock = lm.currentLock ∨ lm'.currentLock = none)
    (hn : lm.nextId ≤ lm'.nextId) : JState a b lm' := by
  rcases hJ with hP | ⟨hbq, hbc, hbn⟩
  · left
    rw [hq]
    exact hP
  · right
    refine ⟨hq ▸ hbq, ?_, lt_of_lt_of_le hbn hn⟩
    rcases hcl with hc | hc
    · rw [hc]; exact hbc
    · rw [hc]; simp

theorem JState_step_filter {a b : Nat} {lm : LMState} (lm' : LMState) (hinv : Inv lm)
    (hJ : JState a b lm) {p : Nat → Bool} (hq : lm'.queue = lm.queue.filter p)
    (hcl : lm'.currentLock = lm.currentLock ∨ lm'.currentLock = none)
    (hn : lm.nextId ≤ lm'.nextId) (ha : a ∈ lm'.queue) : JState a b lm' := by
  rcases hJ with hP | ⟨hbq, hbc, hbn⟩
  · by_cases hb : b ∈ lm.queue.filter p
    · left
      rw [hq]
      exact hP.filter p (hq ▸ ha) hb
    · right
      refine ⟨hq ▸ hb, ?_, lt_of_lt_of_le (queue_ids_lt hinv hP.mem_right) hn⟩
      rcases hcl with hc | hc
      · rw [hc]
        exact JState.not_holder hinv (Or.inl hP)
      · rw [hc]; simp
  · right
    refine ⟨?_, ?_, lt_of_lt_of_le hbn hn⟩
    · rw [hq]
      intro hc
      exact hbq (List.mem_filter.mp hc).1
    · rcases hcl with hc | hc
      · rw [hc]; exact hbc
      · rw [hc]; simp

theorem JState_append {a b : Nat} {lm : LMState} (lm' : LMState) (hJ : JState a b lm)
    (hq : lm'.queue = lm.queue ++ [lm.nextId])
    (hcl : lm'.currentLock = lm.currentLock)
    (hn : lm'.nextId = lm.nextId + 1) : JState a b lm' := by
  rcases hJ with hP | ⟨hbq, hbc, hbn⟩
  · left
    rw [hq]
    exact hP.append
  · right
    refine ⟨?_, by rw [hcl]; exact hbc, by omega⟩
    rw [hq]
    intro hc
    rcases List.mem_append.mp hc with hc1 | hc2
    · exact hbq hc1
    · have : b = lm.nextId := by simpa using hc2
      omega


theorem checkLock_frame (cfg : Config) (now tid : Nat) (lm : LMState) :
    (checkLock cfg now tid lm).2.queue = lm.queue ∧
    (checkLock cfg now tid lm).2.currentLock = lm.currentLock ∧
    (checkLock cfg now tid lm).2.nextId = lm.nextId := by
  rcases hfind : findTicket lm.tickets tid with _ | t <;> simp [checkLock, hfind]

theorem extendLock_frame (cfg : Config) (now tid : Nat) (lm : LMState) :
    (extendLock cfg now tid lm).2.queue = lm.queue ∧
    (extendLock cfg now tid lm).2.currentLock = lm.currentLock ∧
    (extendLock cfg now tid lm).2.nextId = lm.nextId := by
  by_cases hext : cfg.lockExtendable
  · rcases hfind : findTicket lm.tickets tid with _ | t
    · simp [extendLock, hext, hfind]
    · by_cases hcl : lm.currentLock = some tid
      · by_cases hcnt : cfg.lockExtendMax ≤ t.extendCount <;>
          simp [extendLock, hext, hfind, hcl, hcnt]
      · simp [extendLock, hext, hfind, hcl]
  · simp [extendLock, hext]

theorem releaseLock_state_eq (cfg : Config) (now : Nat) {tid : Nat} {lm : LMState} {t : Ticket}
    (hfind : findTicket lm.tickets tid = some t) (hcl : lm.currentLock = some tid) :
    (releaseLock cfg now tid lm).2
      = tryGrantNext cfg now
          { lm with currentLock := none,
                    tickets := removeTicket lm.tickets tid,
                    threadKeys := tkErase lm.threadKeys t.key } := by
  simp only [releaseLock, hfind, hcl, bne_self_eq_false, Bool.false_eq_true, if_false]
  rw [reap_state_eq (findTicket_some hfind).2 (g := Ticket.release) rfl rfl]

theorem expireCurrentLock_state_eq (cfg : Config) (now : Nat) {lm : LMState} {i : Nat}
    {t : Ticket} (hcl : lm.currentLock = some i) (hfind : findTicket lm.tickets i = some t) :
    (expireCurrentLock cfg now lm).2
      = tryGrantNext cfg now
          { lm with currentLock := none,
                    tickets := removeTicket lm.tickets i,
                    threadKeys := tkErase lm.threadKeys t.key } := by
  simp only [expireCurrentLock, hcl, hfind]
  rw [reap_state_eq (findTicket_some hfind).2 (g := Ticket.expire) rfl rfl]

theorem checkGracePeriod_state_eq (cfg : Config) (now : Nat) {lm : LMState} {i : Nat}
    {t : Ticket} (hcl : lm.currentLock = some i) (hfind : findTicket lm.tickets i = some t)
    (hg : t.isGracePeriodExpired now cfg.lockGracePeriod = true) :
    (checkGracePeriod cfg now lm).2
      = tryGrantNext cfg now
          { lm with currentLock := none,
                    tickets := removeTicket lm.tickets i,
                    threadKeys := tkErase lm.threadKeys t.key } := by
  simp only [checkGracePeriod, hcl, hfind, hg, if_true]
  rw [reap_state_eq (findTicket_some hfind).2 (g := Ticket.expire) rfl rfl]

theorem checkLockExpiry_state_eq (cfg : Config) (now : Nat) {lm : LMState} {i : Nat}
    {t : Ticket} (hcl : lm.currentLock = some i) (hfind : findTicket lm.tickets i = some t)
    (hg : t.isLockExpired now = true) :
    (checkLockExpiry cfg now lm).2
      = tryGrantNext cfg now
          { lm with currentLock := none,
                    tickets := removeTicket lm.tickets i,
                    threadKeys := tkErase lm.threadKeys t.key } := by
  simp only [checkLockExpiry, hcl, hfind, hg, if_true]
  rw [reap_state_eq (findTicket_some hfind).2 (g := Ticket.expire) rfl rfl]

theorem removeHolderIfTool_frame (toolID : String) (lm : LMState) :
    (removeHolderIfTool toolID lm).2.queue = lm.queue ∧
    ((removeHolderIfTool toolID lm).2.currentLock = lm.currentLock ∨
      (removeHolderIfTool toolID lm).2.currentLock = none) ∧
    (removeHolderIfTool toolID lm).2.nextId = lm.nextId := by
  rcases hcl : lm.currentLock with _ | i
  · simp [removeHolderIfTool, hcl]
  · rcases hfind : findTicket lm.tickets i with _ | t
    · simp [removeHolderIfTool, hcl, hfind]
    · by_cases htool : (t.toolID == toolID) = true <;>
        simp [removeHolderIfTool, hcl, hfind, htool, cleanupTicket]


theorem JState_step {cfg : Config} {op : Op} {s : SysState} {a b : Nat}
    (hinv : Inv s.lm) (hJ : JState a b s.lm)
    (ha : a ∈ (stepOp cfg op s).lm.queue) : JState a b (stepOp cfg op s).lm := by
  cases op with
  | register now id => exact hJ
  | heartbeat now id => exact hJ
  | unregister id => exact hJ
  | markOfflineSweep now => exact hJ
  | checkLock now tid =>
    exact JState_frame _ hJ (checkLock_frame cfg now tid s.lm).1
      (Or.inl (checkLock_frame cfg now tid s.lm).2.1)
      (le_of_eq (checkLock_frame cfg now tid s.lm).2.2.symm)
  | extendLock now tid =>
    exact JState_frame _ hJ (extendLock_frame cfg now tid s.lm).1
      (Or.inl (extendLock_frame cfg now tid s.lm).2.1)
      (le_of_eq (extendLock_frame cfg now tid s.lm).2.2.symm)
  | requestLock now toolID threadID =>
    by_cases hon : isOnline s.reg toolID = true
    · rcases hex : existingLive s.lm (toolID ++ ":" ++ threadID) with _ | t
      · have hnew := requestLock_new_inv hinv now hex
        have hstate : (stepOp cfg (.requestLock now toolID threadID) s).lm
            = tryGrantNext cfg now
                { queue := s.lm.queue ++ [(newTicket s.lm.nextId toolID threadID now).ticketID]
                  currentLock := s.lm.currentLock
                  tickets := newTicket s.lm.nextId toolID threadID now :: s.lm.tickets
                  threadKeys := tkInsert s.lm.threadKeys (toolID ++ ":" ++ threadID)
                    (newTicket s.lm.nextId toolID threadID now).ticketID
                  nextId := s.lm.nextId + 1 } := by
          simp [stepOp, requestLock, hon, hex]
        rw [hstate] at ha ⊢
        have hJ1 := JState_append
          { queue := s.lm.queue ++ [(newTicket s.lm.nextId toolID threadID now).ticketID]
            currentLock := s.lm.currentLock
            tickets := newTicket s.lm.nextId toolID threadID now :: s.lm.tickets
            threadKeys := tkInsert s.lm.threadKeys (toolID ++ ":" ++ threadID)
              (newTicket s.lm.nextId toolID threadID now).ticketID
            nextId := s.lm.nextId + 1 }
          hJ rfl rfl rfl
        exact hJ1.tryGrant hnew ha
      · have : (stepOp cfg (.requestLock now toolID threadID) s).lm = s.lm := by
          simp [stepOp, requestLock, hon, hex]
        rw [this]
        exact hJ
    · have hon' : isOnline s.reg toolID = false := by simpa using hon
      have : (stepOp cfg (.requestLock now toolID threadID) s).lm = s.lm := by
        simp [stepOp, requestLock, hon']
      rw [this]
      exact hJ
  | releaseLock now tid =>
    rcases hfind : findTicket s.lm.tickets tid with _ | t
    · have : (stepOp cfg (.releaseLock now tid) s).lm = s.lm := by
        simp [stepOp, releaseLock, hfind]
      rw [this]
      exact hJ
    · by_cases hcl : s.lm.currentLock = some tid
      · have hst := releaseLock_state_eq cfg now hfind hcl
        have hstep : (stepOp cfg (.releaseLock now tid) s).lm
            = (releaseLock cfg now tid s.lm).2 := rfl
        rw [hstep, hst] at ha ⊢
        have hmid := JState_frame
          { s.lm with currentLock := none,
                      tickets := removeTicket s.lm.tickets tid,
                      threadKeys := tkErase s.lm.threadKeys t.key }
          hJ rfl (Or.inr rfl) (le_refl _)
        exact hmid.tryGrant (dropHolder_inv hinv hcl hfind) ha
      · have : (stepOp cfg (.releaseLock now tid) s).lm = s.lm := by
          simp [stepOp, releaseLock, hfind, hcl]
        rw [this]
        exact hJ
  | expireCurrentLock now =>
    rcases hcl : s.lm.currentLock with _ | i
    · have : (stepOp cfg (.expireCurrentLock now) s).lm = s.lm := by
        simp [stepOp, expireCurrentLock, hcl]
      rw [this]
      exact hJ
    · rcases hfind : findTicket s.lm.tickets i with _ | t
      · have : (stepOp cfg (.expireCurrentLock now) s).lm = s.lm := by
          simp [stepOp, expireCurrentLock, hcl, hfind]
        rw [this]
        exact hJ
      · have hst := expireCurrentLock_state_eq cfg now hcl hfind
        have hstep : (stepOp cfg (.expireCurrentLock now) s).lm
            = (expireCurrentLock cfg now s.lm).2 := rfl
        rw [hstep, hst] at ha ⊢
        have hmid := JState_frame
          { s.lm with currentLock := none,
                      tickets := removeTicket s.lm.tickets i,
                      threadKeys := tkErase s.lm.threadKeys t.key }
          hJ rfl (Or.inr rfl) (le_refl _)
        exact hmid.tryGrant (dropHolder_inv hinv hcl hfind) ha
  | checkGracePeriod now =>
    rcases hcl : s.lm.currentLock with _ | i
    · have : (stepOp cfg (.checkGracePeriod now) s).lm = s.lm := by
        simp [stepOp, checkGracePeriod, hcl]
      rw [this]
      exact hJ
    · rcases hfind : findTicket s.lm.tickets i with _ | t
      · have : (stepOp cfg (.checkGracePeriod now) s).lm = s.lm := by
          simp [stepOp, checkGracePeriod, hcl, hfind]
        rw [this]
        exact hJ
      · by_cases hg : t.isGracePeriodExpired now cfg.lockGracePeriod = true
        · have hst := checkGracePeriod_state_eq cfg now hcl hfind hg
          have hstep : (stepOp cfg (.checkGracePeriod now) s).lm
              = (checkGracePeriod cfg now s.lm).2 := rfl
          rw [hstep, hst] at ha ⊢
          have hmid := JState_frame
            { s.lm with currentLock := none,
                        tickets := removeTicket s.lm.tickets i,
                        threadKeys := tkErase s.lm.threadKeys t.key }
            hJ rfl (Or.inr rfl) (le_refl _)
          exact hmid.tryGrant (dropHolder_inv hinv hcl hfind) ha
        · have : (stepOp cfg (.checkGracePeriod now) s).lm = s.lm := by
            simp [stepOp, checkGracePeriod, hcl, hfind, hg]
          rw [this]
          exact hJ
  | checkLockExpiry now =>
    rcases hcl : s.lm.currentLock with _ | i
    · have : (stepOp cfg (.checkLockExpiry now) s).lm = s.lm := by
        simp [stepOp, checkLockExpiry, hcl]
      rw [this]
      exact hJ
    · rcases hfind : findTicket s.lm.tickets i with _ | t
      · have : (stepOp cfg (.checkLockExpiry now) s).lm = s.lm := by
          simp [stepOp, checkLockExpiry, hcl, hfind]
        rw [this]
        exact hJ
      · by_cases hg : t.isLockExpired now = true
        · have hst := checkLockExpiry_state_eq cfg now hcl hfind hg
          have hstep : (stepOp cfg (.checkLockExpiry now) s).lm
              = (checkLockExpiry cfg now s.lm).2 := rfl
          rw [hstep, hst] at ha ⊢
          have hmid := JState_frame
            { s.lm with currentLock := none,
                        tickets := removeTicket s.lm.tickets i,
                        threadKeys := tkErase s.lm.threadKeys t.key }
            hJ rfl (Or.inr rfl) (le_refl _)
          exact hmid.tryGrant (dropHolder_inv hinv hcl hfind) ha
        · have : (stepOp cfg (.checkLockExpiry now) s).lm = s.lm := by
            simp [stepOp, checkLockExpiry, hcl, hfind, hg]
          rw [this]
          exact hJ
  | expireWaitingTickets now =>
    have hspec := sweepQueue_spec (p := fun t => t.isTTLExpired now cfg.ticketTTL)
      (g := Ticket.expire) (fun _ => rfl) (fun _ => rfl) s.lm.queue s.lm.tickets
      s.lm.threadKeys hinv.queue_nodup hinv.ids_nodup
    have hstep : (stepOp cfg (.expireWaitingTickets now) s).lm
        = (expireWaitingTickets cfg now s.lm).2 := rfl
    refine JState_step_filter _ hinv hJ
      (p := fun i => match findTicket s.lm.tickets i with
        | some t => !(t.isTTLExpired now cfg.ticketTTL)
        | none => true) ?_ (Or.inl ?_) ?_ ha
    · rw [hstep, expireWaitingTickets_eq, hspec]
    · rw [hstep, expireWaitingTickets_eq]
    · rw [hstep, expireWaitingTickets_eq]
  | removeToolTickets now toolID =>
    have hframe := removeHolderIfTool_frame toolID s.lm
    have hinv0 : Inv (removeHolderIfTool toolID s.lm).2 := removeHolderIfTool_inv hinv
    have hJ0 : JState a b (removeHolderIfTool toolID s.lm).2 :=
      JState_frame _ hJ hframe.1 hframe.2.1 (le_of_eq hframe.2.2.symm)
    have hspec := sweepQueue_spec (p := fun t => t.toolID == toolID) (g := id)
      (fun _ => rfl) (fun _ => rfl) (removeHolderIfTool toolID s.lm).2.queue
      (removeHolderIfTool toolID s.lm).2.tickets
      (removeHolderIfTool toolID s.lm).2.threadKeys hinv0.queue_nodup hinv0.ids_nodup
    have hstep : (stepOp cfg (.removeToolTickets now toolID) s).lm
        = (removeToolTickets cfg now toolID s.lm).2 := rfl
    have hsplit : (removeToolTickets cfg now toolID s.lm).2
        = (if ((removeHolderIfTool toolID s.lm).1
              ++ ((sweepQueue (fun t => t.toolID == toolID) id
                    (removeHolderIfTool toolID s.lm).2.queue
                    (removeHolderIfTool toolID s.lm).2.tickets
                    (removeHolderIfTool toolID s.lm).2.threadKeys).1.map Ticket.ticketID)).isEmpty
           then { (removeHolderIfTool toolID s.lm).2 with
                  queue := (sweepQueue (fun t => t.toolID == toolID) id
                    (removeHolderIfTool toolID s.lm).2.queue
                    (removeHolderIfTool toolID s.lm).2.tickets
                    (removeHolderIfTool toolID s.lm).2.threadKeys).2.1
                  tickets := (sweepQueue (fun t => t.toolID == toolID) id
                    (removeHolderIfTool toolID s.lm).2.queue
                    (removeHolderIfTool toolID s.lm).2.tickets
                    (removeHolderIfTool toolID s.lm).2.threadKeys).2.2.1
                  threadKeys := (sweepQueue (fun t => t.toolID == toolID) id
                    (removeHolderIfTool toolID s.lm).2.queue
                    (removeHolderIfTool toolID s.lm).2.tickets
                    (removeHolderIfTool toolID s.lm).2.threadKeys).2.2.2 }
           else tryGrantNext cfg now
                { (removeHolderIfTool toolID s.lm).2 with
                  queue := (sweepQueue (fun t => t.toolID == toolID) id
                    (removeHolderIfTool toolID s.lm).2.queue
                    (removeHolderIfTool toolID s.lm).2.tickets
                    (removeHolderIfTool toolID s.lm).2.threadKeys).2.1
                  tickets := (sweepQueue (fun t => t.toolID == toolID) id
                    (removeHolderIfTool toolID s.lm).2.queue
                    (removeHolderIfTool toolID s.lm).2.tickets
                    (removeHolderIfTool toolID s.lm).2.threadKeys).2.2.1
                  threadKeys := (sweepQueue (fun t => t.toolID == toolID) id
                    (removeHolderIfTool toolID s.lm).2.queue
                    (removeHolderIfTool toolID s.lm).2.tickets
                    (removeHolderIfTool toolID s.lm).2.threadKeys).2.2.2 }) := by
      simp only [removeToolTickets]
      split <;> rfl
    rw [hstep, hsplit] at ha ⊢
    have hq1 : (sweepQueue (fun t => t.toolID == toolID) id
          (removeHolderIfTool toolID s.lm).2.queue
          (removeHolderIfTool toolID s.lm).2.tickets
          (removeHolderIfTool toolID s.lm).2.threadKeys).2.1
        = (removeHolderIfTool toolID s.lm).2.queue.filter (fun i =>
            match findTicket (removeHolderIfTool toolID s.lm).2.tickets i with
            | some t => !(t.toolID == toolID)
            | none => true) := by
      rw [hspec]
    by_cases hc : ((removeHolderIfTool toolID s.lm).1
        ++ ((sweepQueue (fun t => t.toolID == toolID) id
              (removeHolderIfTool toolID s.lm).2.queue
              (removeHolderIfTool toolID s.lm).2.tickets
              (removeHolderIfTool toolID s.lm).2.threadKeys).1.map Ticket.ticketID)).isEmpty = true
    · rw [if_pos hc] at ha ⊢
      exact JState_step_filter ({ (removeHolderIfTool toolID s.lm).2 with
                  queue := (sweepQueue (fun t => t.toolID == toolID) id
                    (removeHolderIfTool toolID s.lm).2.queue
                    (removeHolderIfTool toolID s.lm).2.tickets
                    (removeHolderIfTool toolID s.lm).2.threadKeys).2.1
                  tickets := (sweepQueue (fun t => t.toolID == toolID) id
                    (removeHolderIfTool toolID s.lm).2.queue
                    (removeHolderIfTool toolID s.lm).2.tickets
                    (removeHolderIfTool toolID s.lm).2.threadKeys).2.2.1
                  threadKeys := (sweepQueue (fun t => t.toolID == toolID) id
                    (removeHolderIfTool toolID s.lm).2.queue
                    (removeHolderIfTool toolID s.lm).2.tickets
                    (removeHolderIfTool toolID s.lm).2.threadKeys).2.2.2 }) hinv0 hJ0 hq1 (Or.inl rfl) (le_refl _) ha
    · rw [if_neg hc] at ha ⊢
      have ha1 : a ∈ ({ (removeHolderIfTool toolID s.lm).2 with
                  queue := (sweepQueue (fun t => t.toolID == toolID) id
                    (removeHolderIfTool toolID s.lm).2.queue
                    (removeHolderIfTool toolID s.lm).2.tickets
                    (removeHolderIfTool toolID s.lm).2.threadKeys).2.1
                  tickets := (sweepQueue (fun t => t.toolID == toolID) id
                    (removeHolderIfTool toolID s.lm).2.queue
                    (removeHolderIfTool toolID s.lm).2.tickets
                    (removeHolderIfTool toolID s.lm).2.threadKeys).2.2.1
                  threadKeys := (sweepQueue (fun t => t.toolID == toolID) id
                    (removeHolderIfTool toolID s.lm).2.queue
                    (removeHolderIfTool toolID s.lm).2.tickets
                    (removeHolderIfTool toolID s.lm).2.threadKeys).2.2.2 } : LMState).queue := tryGrantNext_queue_sub ha
      have hJ1 := JState_step_filter ({ (removeHolderIfTool toolID s.lm).2 with
                  queue := (sweepQueue (fun t => t.toolID == toolID) id
                    (removeHolderIfTool toolID s.lm).2.queue
                    (removeHolderIfTool toolID s.lm).2.tickets
                    (removeHolderIfTool toolID s.lm).2.threadKeys).2.1
                  tickets := (sweepQueue (fun t => t.toolID == toolID) id
                    (removeHolderIfTool toolID s.lm).2.queue
                    (removeHolderIfTool toolID s.lm).2.tickets
                    (removeHolderIfTool toolID s.lm).2.threadKeys).2.2.1
                  threadKeys := (sweepQueue (fun t => t.toolID == toolID) id
                    (removeHolderIfTool toolID s.lm).2.queue
                    (removeHolderIfTool toolID s.lm).2.tickets
                    (removeHolderIfTool toolID s.lm).2.threadKeys).2.2.2 }) hinv0 hJ0 hq1 (Or.inl rfl) (le_refl _) ha1
      exact hJ1.tryGrant (sweep_inv hinv0 (fun _ => rfl) (fun _ => rfl)) ha


/-- As long as ticket `a` is still waiting in the queue, a ticket `b` queued
behind it is never the holder, whatever operations run. -/
theorem fifo_no_overtake {cfg : Config} {a b : Nat} :
    ∀ (ops : List Op) (s : SysState), Inv s.lm → JState a b s.lm →
      (∀ pre suf : List Op, ops = pre ++ suf → a ∈ (execOps cfg s pre).lm.queue) →
      (execOps cfg s ops).lm.currentLock ≠ some b := by
  intro ops
  induction ops with
  | nil =>
    intro s hinv hJ _
    exact hJ.not_holder hinv
  | cons op rest ih =>
    intro s hinv hJ hmem
    have ha1 : a ∈ (stepOp cfg op s).lm.queue := by
      have := hmem [op] rest rfl
      simpa [execOps] using this
    have hJ1 := JState_step hinv hJ ha1
    have hinv1 := @stepOp_inv cfg op s hinv
    have hmem1 : ∀ pre suf : List Op, rest = pre ++ suf →
        a ∈ (execOps cfg (stepOp cfg op s) pre).lm.queue := by
      intro pre suf hsplit
      have := hmem (op :: pre) suf (by rw [hsplit]; rfl)
      simpa [execOps] using this
    exact ih (stepOp cfg op s) hinv1 hJ1 hmem1

/-- **C4**. FIFO fairness: every grant takes the head of the queue
(`tryGrantNext` pops the front and makes it the holder), and consequently,
for every reachable state in which ticket `a` is queued strictly ahead of
ticket `b`, no sequence of operations during which `a` stays in the queue
(i.e. `a` is neither granted, expired, nor removed) ever makes `b` the
holder: a ticket is never granted while a ticket enqueued earlier is still
waiting, so when neither ticket's tool goes offline and neither expires, `a`
is granted before `b`. -/
theorem C4_fifo_fairness {cfg : Config} {s : SysState} (h : Reachable cfg s)
    {a b : Nat} (hab : Precedes a b s.lm.queue) :
    (∀ (now : Nat) (lm : LMState) (h0 : Nat) (rest : List Nat),
        lm.currentLock = none → lm.queue = h0 :: rest →
        (tryGrantNext cfg now lm).currentLock = some h0 ∧
        (tryGrantNext cfg now lm).queue = rest) ∧
    (∀ ops : List Op,
        (∀ pre suf : List Op, ops = pre ++ suf → a ∈ (execOps cfg s pre).lm.queue) →
        (execOps cfg s ops).lm.currentLock ≠ some b) := by
  constructor
  · intro now lm h0 rest hcl hq
    constructor <;> simp [tryGrantNext, hcl, hq]
  · intro ops hmem
    exact fifo_no_overtake ops s (reachable_inv h) (Or.inl hab) hmem

/-- Witness for C4 on `sC8` (queue `[1, 2]` behind holder 0): ticket 2,
queued behind ticket 1, is not the holder while 1 still waits. -/
theorem C4_fifo_fairness_witness :
    (execOps cfg0 sC8 []).lm.currentLock ≠ some 2 :=
  (C4_fifo_fairness sC8_reachable (a := 1) (b := 2) ⟨[], [], [], by decide⟩).2 []
    (fun pre suf hsplit => by
      have hpre : pre = [] := (List.append_eq_nil.mp hsplit.symm).1
      subst hpre
      decide)


/-! ### C9: per-minute metrics counters (logger/event_logger.go) -/

/-- The per-minute counters of `EventLogger` (Go `atomic.Int64`s; only
non-negative values arise, so `Nat`). -/
structure MetricsState where
  locksGranted : Nat
  locksReleased : Nat
  locksExpired : Nat
  expiredTickets : Nat
  failedRequests : Nat
  totalWaitTime : Nat
  totalHoldTime : Nat
  waitCount : Nat
  holdCount : Nat
deriving DecidableEq, Repr

def initMetrics : MetricsState :=
  { locksGranted := 0, locksReleased := 0, locksExpired := 0, expiredTickets := 0,
    failedRequests := 0, totalWaitTime := 0, totalHoldTime := 0, waitCount := 0,
    holdCount := 0 }

/-- The fields of `model.SystemMetricsLog` filled by `GetMinuteMetrics` (the
struct has no released / expired-lock fields). -/
structure SystemMetricsLog where
  locksGrantedLastMin : Nat
  expiredTickets : Nat
  failedRequests : Nat
  avgWaitTimeMs : Nat
  avgHoldTimeMs : Nat
deriving DecidableEq, Repr

/-- Counter-relevant recorder events. -/
inductive MEvent where
  | lockGranted (waitMs : Nat)
  | lockReleased (holdMs : Nat)
  | lockExpired
  | ticketExpired
  | failedRequest
deriving DecidableEq, Repr

/-- Counter updates of `LogLockGranted` / `LogLockReleased` / `LogLockExpired`
/ `LogTicketExpired` / `IncrementErrors`. -/
def applyEvent (m : MetricsState) : MEvent → MetricsState
  | .lockGranted w =>
    { m with locksGranted := m.locksGranted + 1, totalWaitTime := m.totalWaitTime + w,
             waitCount := m.waitCount + 1 }
  | .lockReleased hold =>
    { m with locksReleased := m.locksReleased + 1, totalHoldTime := m.totalHoldTime + hold,
             holdCount := m.holdCount + 1 }
  | .lockExpired => { m with locksExpired := m.locksExpired + 1 }
  | .ticketExpired => { m with expiredTickets := m.expiredTickets + 1 }
  | .failedRequest => { m with failedRequests := m.failedRequests + 1 }

def applyEvents (es : List MEvent) (m : MetricsState) : MetricsState :=
  es.foldl applyEvent m

/-- `GetMinuteMetrics`: swap the wait/hold accumulators and the granted /
expired-ticket / failed-request counters to zero and return them (averages
derived from the swapped sums and counts); `locksReleased` and `locksExpired`
are merely stored to zero — their values are not read, and the snapshot
struct has no fields for them. -/
def getMinuteMetrics (m : MetricsState) : SystemMetricsLog × MetricsState :=
  let avgWait := if m.waitCount > 0 then m.totalWaitTime / m.waitCount else 0
  let avgHold := if m.holdCount > 0 then m.totalHoldTime / m.holdCount else 0
  ({ locksGrantedLastMin := m.locksGranted
     expiredTickets := m.expiredTickets
     failedRequests := m.failedRequests
     avgWaitTimeMs := avgWait
     avgHoldTimeMs := avgHold },
   initMetrics)

def isGrantedEvent : MEvent → Bool
  | .lockGranted _ => true
  | _ => false

def isTicketExpiredEvent : MEvent → Bool
  | .ticketExpired => true
  | _ => false

def isFailedEvent : MEvent → Bool
  | .failedRequest => true
  | _ => false

def isReleasedEvent : MEvent → Bool
  | .lockReleased _ => true
  | _ => false

theorem applyEvents_locksGranted (es : List MEvent) : ∀ m : MetricsState,
    (applyEvents es m).locksGranted = m.locksGranted + es.countP isGrantedEvent := by
  induction es with
  | nil => intro m; simp [applyEvents]
  | cons e es ih =>
    intro m
    rw [applyEvents, List.foldl_cons,
      show List.foldl applyEvent (applyEvent m e) es = applyEvents es (applyEvent m e) from rfl,
      ih, List.countP_cons]
    cases e <;> simp [applyEvent, isGrantedEvent] <;> omega

theorem applyEvents_expiredTickets (es : List MEvent) : ∀ m : MetricsState,
    (applyEvents es m).expiredTickets = m.expiredTickets + es.countP isTicketExpiredEvent := by
  induction es with
  | nil => intro m; simp [applyEvents]
  | cons e es ih =>
    intro m
    rw [applyEvents, List.foldl_cons,
      show List.foldl applyEvent (applyEvent m e) es = applyEvents es (applyEvent m e) from rfl,
      ih, List.countP_cons]
    cases e <;> simp [applyEvent, isTicketExpiredEvent] <;> omega

theorem applyEvents_failedRequests (es : List MEvent) : ∀ m : MetricsState,
    (applyEvents es m).failedRequests = m.failedRequests + es.countP isFailedEvent := by
  induction es with
  | nil => intro m; simp [applyEvents]
  | cons e es ih =>
    intro m
    rw [applyEvents, List.foldl_cons,
      show List.foldl applyEvent (applyEvent m e) es = applyEvents es (applyEvent m e) from rfl,
      ih, List.countP_cons]
    cases e <;> simp [applyEvent, isFailedEvent] <;> omega

/-- **C9 counterexample**. Two counter states that differ only in
`locksReleased` (one released event recorded vs. none) produce identical
`GetMinuteMetrics` outputs, and the post-state counter is zero: the released
count is reset without being returned, so the snapshots cannot partition the
release events — the claim that every per-minute counter is swapped to zero
*and returned in the snapshot* (with no event lost) is false. -/
theorem C9_counterexample :
    getMinuteMetrics { initMetrics with locksReleased := 1 }
      = getMinuteMetrics initMetrics ∧
    ({ initMetrics with locksReleased := 1 } : MetricsState).locksReleased
      ≠ initMetrics.locksReleased ∧
    (getMinuteMetrics { initMetrics with locksReleased := 1 }).2.locksReleased = 0 := by
  refine ⟨by decide, by decide, by decide⟩

/-- **C9 (amended)**. `GetMinuteMetrics` swaps the granted / expired-ticket /
failed-request counters and the wait/hold accumulators to zero, returning the
counts (and the derived averages) in the snapshot, so successive snapshots
partition exactly the granted, ticket-expired and failed-request events
recorded between calls; `locksReleased` and `locksExpired`, however, are
stored to zero without being read — the snapshot does not depend on them and
carries no field for them, so holder-side release/expire events are dropped
rather than partitioned. -/
theorem C9_minute_metrics (m : MetricsState) (es : List MEvent) :
    (getMinuteMetrics (applyEvents es m)).1.locksGrantedLastMin
        = m.locksGranted + es.countP isGrantedEvent ∧
    (getMinuteMetrics (applyEvents es m)).1.expiredTickets
        = m.expiredTickets + es.countP isTicketExpiredEvent ∧
    (getMinuteMetrics (applyEvents es m)).1.failedRequests
        = m.failedRequests + es.countP isFailedEvent ∧
    (getMinuteMetrics m).2 = initMetrics ∧
    (∀ x y : Nat,
      (getMinuteMetrics { m with locksReleased := x, locksExpired := y }).1
        = (getMinuteMetrics m).1) := by
  refine ⟨?_, ?_, ?_, rfl, fun x y => rfl⟩
  · exact applyEvents_locksGranted es m
  · exact applyEvents_expiredTickets es m
  · exact applyEvents_failedRequests es m

/-- Witness for C9 (amended) at a concrete event list. -/
theorem C9_minute_metrics_witness :
    (getMinuteMetrics (applyEvents [.lockGranted 3, .lockReleased 7, .ticketExpired]
        initMetrics)).1.locksGrantedLastMin
      = initMetrics.locksGranted
        + ([MEvent.lockGranted 3, .lockReleased 7, .ticketExpired].countP isGrantedEvent) :=
  (C9_minute_metrics initMetrics [.lockGranted 3, .lockReleased 7, .ticketExpired]).1

end Clipboard

